import Mathlib

/-!
# libresuse: resource-usage snapshots and their template renderer

A shallow embedding of `resuse.c` / `resuse.h`.

* C `long` / `time_t` / `suseconds_t` values are integers (`Int`); the LP64
  data model of the hosts that provide `getrusage` is assumed, so `long` and
  `unsigned long` are 64 bits wide and `int` is 32 bits wide.  Results of
  signed arithmetic are reduced with `toLong` (two's complement wrap-around),
  results of unsigned arithmetic with `% 2 ^ 64`; a signed expression that is
  assigned to an `unsigned long` is reduced once, with `toUL`.
* C `char` values are `Char`; a format string is the list of the characters
  that precede its terminating NUL, the output sink is the list of the
  characters written with `putc` / `fprintf`.
* The two `static` variables of `ptok` are passed around explicitly.
* Undefined behaviour that the code can reach (an unsigned division by zero,
  a read behind the terminator of the format string) is a `Status` of its own.
-/

namespace Resuse

/-! ## Machine integers -/

/-- The constant `LONG_MAX` of `<limits.h>`: `2 ^ 63 - 1`. -/
def LONG_MAX : Nat := 9223372036854775807

/-- The largest `unsigned long`: `2 ^ 64 - 1`. -/
def ULONG_MAX : Nat := 18446744073709551615

/-- Conversion of an integer to `unsigned long` (reduction modulo `2 ^ 64`). -/
def toUL (x : Int) : Nat := (x % 18446744073709551616).toNat

/-- Conversion of an integer to `long` (two's complement wrap-around). -/
def toLong (x : Int) : Int :=
  (x + 9223372036854775808) % 18446744073709551616 - 9223372036854775808

/-- Conversion of an integer to `int` (two's complement wrap-around). -/
def toInt (x : Int) : Int := (x + 2147483648) % 4294967296 - 2147483648

/-! ## Data model (`resuse.h`, `<sys/time.h>`, `<sys/resource.h>`) -/

/-- The `struct timeval` of `<sys/time.h>`. -/
structure timeval where
  tv_sec : Int
  tv_usec : Int
deriving DecidableEq, Repr

/-- The fields of `struct rusage` that the library reads. -/
structure rusage where
  ru_utime : timeval
  ru_stime : timeval
  ru_maxrss : Int
  ru_ixrss : Int
  ru_idrss : Int
  ru_isrss : Int
  ru_minflt : Int
  ru_majflt : Int
  ru_nswap : Int
  ru_inblock : Int
  ru_oublock : Int
  ru_msgsnd : Int
  ru_msgrcv : Int
  ru_nsignals : Int
  ru_nvcsw : Int
  ru_nivcsw : Int
deriving DecidableEq, Repr

/-- The `enum resuse_scope` of `resuse.h`. -/
inductive resuse_scope where
  | RESUSE_SCOPE_PROC
  | RESUSE_SCOPE_THREAD
deriving DecidableEq, Repr

/-- The `struct resuse` of `resuse.h`. -/
structure resuse where
  ru : rusage
  start : timeval
  elapsed : timeval
  scope : resuse_scope
deriving DecidableEq, Repr

/-- The macro `TV_MSEC` of `resuse.h`: `tv_usec / 1000` (C division truncates). -/
def TV_MSEC (tv : timeval) : Int := tv.tv_usec.tdiv 1000

/-! ## `resuse_start` and `resuse_end` -/

/-- The function `resuse_start`; `now` is what `gettimeofday` stores. -/
def resuse_start (resp : resuse) (scope : resuse_scope) (now : timeval) : resuse :=
  { resp with start := now, scope := scope }

/-- The function `resuse_end`; `now` is what `gettimeofday` stores into
`resp->elapsed` and `usage` is what `getrusage` stores into `resp->ru`. -/
def resuse_end (resp : resuse) (now : timeval) (usage : rusage) : resuse :=
  let sec := toLong (now.tv_sec - resp.start.tv_sec)
  if now.tv_usec < resp.start.tv_usec then
    let usec := toLong (now.tv_usec + 1000000)
    let sec1 := toLong (sec - 1)
    { resp with ru := usage, elapsed := ⟨sec1, toLong (usec - resp.start.tv_usec)⟩ }
  else
    { resp with ru := usage, elapsed := ⟨sec, toLong (now.tv_usec - resp.start.tv_usec)⟩ }

/-! ## `ptok` -/

/-- The two `static` variables of `ptok`. -/
structure PtokStatics where
  ps : Nat
  size : Int
deriving DecidableEq, Repr

/-- The initial values of the statics: `ps = 0`, `size = LONG_MAX`. -/
def PtokStatics.init : PtokStatics := ⟨0, 9223372036854775807⟩

/-- The value of `ps` after the initialisation step `if (ps == 0) ps = (long) getpagesize ();`. -/
def ptok_ps (pagesize : Nat) (st : PtokStatics) : Nat :=
  if st.ps = 0 then toUL (toLong pagesize) else st.ps

/-- The exact (not yet reduced) product that `ptok` computes: `tmp * ps` in the
divide-first branch, `pages * ps` in the multiply-first branch. -/
def ptok_product (pagesize : Nat) (st : PtokStatics) (pages : Nat) : Nat :=
  let ps := ptok_ps pagesize st
  if pages > LONG_MAX / ps then (pages / 1024) * ps else pages * ps

/-- The exact value that `ptok` assigns to its accumulator `size` (a `long`),
before the conversion to the type of `size`. -/
def ptok_assigned (pagesize : Nat) (st : PtokStatics) (pages : Nat) : Nat :=
  let ps := ptok_ps pagesize st
  if pages > LONG_MAX / ps then
    (pages / 1024) * ps % 18446744073709551616
  else
    (pages * ps % 18446744073709551616) / 1024

/-- The function `ptok`: the returned `unsigned long` and the statics it leaves.
The parameter `pagesize` is what `getpagesize ()` returns, a positive `int`. -/
def ptok (pagesize : Nat) (st : PtokStatics) (pages : Nat) : Nat × PtokStatics :=
  let ps := ptok_ps pagesize st
  if pages > LONG_MAX / ps then
    let tmp := pages / 1024
    let size := toLong ((tmp * ps % 18446744073709551616 : Nat) : Int)
    (toUL size, ⟨ps, size⟩)
  else
    let tmp := pages * ps % 18446744073709551616
    let size := toLong ((tmp / 1024 : Nat) : Int)
    (toUL size, ⟨ps, size⟩)

/-- The two branches of `ptok`. -/
inductive PtokBranch where
  | divide_first
  | multiply_first
deriving DecidableEq, Repr

/-- The branch of `ptok` that the test `pages > (LONG_MAX / ps)` selects. -/
def ptok_branch (pagesize : Nat) (st : PtokStatics) (pages : Nat) : PtokBranch :=
  if pages > LONG_MAX / ptok_ps pagesize st then .divide_first else .multiply_first

/-- The value `ptok` returns when `ps` holds the page size `s`, as a function
of the page size and the page count alone. -/
def ptok_value (s pages : Nat) : Nat :=
  if pages > LONG_MAX / s then (pages / 1024) * s % 18446744073709551616
  else (pages * s % 18446744073709551616) / 1024

/-! ## `printf` conversions -/

/-- The conversion `%lu`. -/
def fmt_lu (n : Nat) : List Char := Nat.toDigits 10 n

/-- The conversion `%ld` (and `%d`). -/
def fmt_ld (x : Int) : List Char :=
  if x < 0 then '-' :: Nat.toDigits 10 x.natAbs else Nat.toDigits 10 x.toNat

/-- The conversion `%02ld`: sign, then zeros up to a total width of two. -/
def fmt_02ld (x : Int) : List Char :=
  if x < 0 then '-' :: Nat.toDigits 10 x.natAbs
  else List.replicate (2 - (Nat.toDigits 10 x.toNat).length) '0' ++ Nat.toDigits 10 x.toNat

/-- The conversion `%02d` applied to a `long` argument: the low 32 bits are
read as an `int`. -/
def fmt_02d (x : Int) : List Char := fmt_02ld (toInt x)

/-! ## `resuse_fprint` -/

/-- The default of the macro `TICKS_PER_SEC`. -/
def TICKS_PER_SEC : Nat := 100

/-- The macro `MSEC_PER_TICK`. -/
def MSEC_PER_TICK : Nat := 1000 / TICKS_PER_SEC

/-- The macro `MSEC_TO_TICKS`. -/
def MSEC_TO_TICKS (m : Nat) : Nat := m / MSEC_PER_TICK

/-- The local `r` of `resuse_fprint`: elapsed time in milliseconds. -/
def resuse_r (resp : resuse) : Nat :=
  toUL (resp.elapsed.tv_sec * 1000 + resp.elapsed.tv_usec.tdiv 1000)

/-- The local `v` of `resuse_fprint`: user plus system time in milliseconds. -/
def resuse_v (resp : resuse) : Nat :=
  toUL (resp.ru.ru_utime.tv_sec * 1000 + TV_MSEC resp.ru.ru_utime +
        resp.ru.ru_stime.tv_sec * 1000 + TV_MSEC resp.ru.ru_stime)

/-- The NUL character that terminates a C string. -/
def NUL : Char := Char.ofNat 0

/-- How a call of `resuse_fprint` ends. -/
inductive Status where
  | returned (code : Int)
  | div_by_zero
  | past_terminator
deriving DecidableEq, Repr

/-- What a call of `resuse_fprint` does: the characters written to `fp`, how
the call ends, and the statics of `ptok` afterwards. -/
structure Rendered where
  out : List Char
  status : Status
  statics : PtokStatics
deriving DecidableEq, Repr

/-- Writes `text` before everything that `k` writes. -/
def Rendered.after (text : List Char) (k : Rendered) : Rendered :=
  { k with out := text ++ k.out }

/-- The inner `switch (*++fmt)` of the case `%`, for a character `c` other than
NUL: the text written and the statics of `ptok` afterwards, or `none` when an
unsigned division by zero is executed.  Calls of `ptok` within one expression
are taken from left to right; the values they return do not depend on the
order, since every call assigns `size` before it reads it. -/
def percent_case (pagesize : Nat) (resp : resuse) (st : PtokStatics) (c : Char) :
    Option (List Char × PtokStatics) :=
  let v := resuse_v resp
  let r := resuse_r resp
  if c = '%' then some (['%'], st)
  else if c = 'D' then
    if MSEC_TO_TICKS v = 0 then some (fmt_lu 0, st)
    else
      let a := ptok pagesize st (toUL resp.ru.ru_idrss)
      let b := ptok pagesize a.2 (toUL resp.ru.ru_isrss)
      some (fmt_lu ((a.1 / MSEC_TO_TICKS v + b.1 / MSEC_TO_TICKS v) % 18446744073709551616), b.2)
  else if c = 'E' then
    if resp.elapsed.tv_sec ≥ 3600 then
      some (fmt_ld (resp.elapsed.tv_sec.tdiv 3600) ++ [':'] ++
            fmt_02ld ((resp.elapsed.tv_sec.tmod 3600).tdiv 60) ++ [':'] ++
            fmt_02ld (resp.elapsed.tv_sec.tmod 60), st)
    else
      some (fmt_ld (resp.elapsed.tv_sec.tdiv 60) ++ [':'] ++
            fmt_02ld (resp.elapsed.tv_sec.tmod 60) ++ ['.'] ++
            fmt_02ld (resp.elapsed.tv_usec.tdiv 10000), st)
  else if c = 'F' then some (fmt_ld resp.ru.ru_majflt, st)
  else if c = 'I' then some (fmt_ld resp.ru.ru_inblock, st)
  else if c = 'K' then
    let a := ptok pagesize st (toUL resp.ru.ru_idrss)
    let b := ptok pagesize a.2 (toUL resp.ru.ru_isrss)
    let x := ptok pagesize b.2 (toUL resp.ru.ru_ixrss)
    if MSEC_TO_TICKS v = 0 then none
    else
      some (fmt_lu ((a.1 / MSEC_TO_TICKS v + b.1 / MSEC_TO_TICKS v + x.1 / MSEC_TO_TICKS v)
              % 18446744073709551616), x.2)
  else if c = 'M' then
    let m := ptok pagesize st (toUL resp.ru.ru_maxrss)
    some (fmt_lu m.1, m.2)
  else if c = 'O' then some (fmt_ld resp.ru.ru_oublock, st)
  else if c = 'P' then
    if r > 0 then some (fmt_lu ((v * 100 % 18446744073709551616) / r) ++ ['%'], st)
    else some (['?', '%'], st)
  else if c = 'R' then some (fmt_ld resp.ru.ru_minflt, st)
  else if c = 'S' then
    some (fmt_ld resp.ru.ru_stime.tv_sec ++ ['.'] ++
          fmt_02d ((TV_MSEC resp.ru.ru_stime).tdiv 10), st)
  else if c = 'U' then
    some (fmt_ld resp.ru.ru_utime.tv_sec ++ ['.'] ++
          fmt_02ld ((TV_MSEC resp.ru.ru_utime).tdiv 10), st)
  else if c = 'W' then some (fmt_ld resp.ru.ru_nswap, st)
  else if c = 'X' then
    if MSEC_TO_TICKS v = 0 then some (fmt_lu 0, st)
    else
      let x := ptok pagesize st (toUL resp.ru.ru_ixrss)
      some (fmt_lu (x.1 / MSEC_TO_TICKS v), x.2)
  else if c = 'Z' then some (fmt_ld pagesize, st)
  else if c = 'c' then some (fmt_ld resp.ru.ru_nivcsw, st)
  else if c = 'e' then
    some (fmt_ld resp.elapsed.tv_sec ++ ['.'] ++
          fmt_02ld (resp.elapsed.tv_usec.tdiv 10000), st)
  else if c = 'k' then some (fmt_ld resp.ru.ru_nsignals, st)
  else if c = 'p' then
    if MSEC_TO_TICKS v = 0 then some (fmt_lu 0, st)
    else
      let s := ptok pagesize st (toUL resp.ru.ru_isrss)
      some (fmt_lu (s.1 / MSEC_TO_TICKS v), s.2)
  else if c = 'r' then some (fmt_ld resp.ru.ru_msgrcv, st)
  else if c = 's' then some (fmt_ld resp.ru.ru_msgsnd, st)
  else if c = 't' then
    if MSEC_TO_TICKS v = 0 then some (fmt_lu 0, st)
    else
      let d := ptok pagesize st (toUL resp.ru.ru_idrss)
      some (fmt_lu (d.1 / MSEC_TO_TICKS v), d.2)
  else if c = 'w' then some (fmt_ld resp.ru.ru_nvcsw, st)
  else some (['?', c], st)

/-- The inner `switch (*++fmt)` of the case backslash: the text written for the
character `c` that follows the backslash. -/
def escape_case (c : Char) : List Char :=
  if c = 't' then ['\t']
  else if c = 'n' then ['\n']
  else if c = '\\' then ['\\']
  else ['?', '\\', c]

/-- The function `resuse_fprint`, started with the statics `st` of `ptok`.
The list `fmt` holds the characters in front of the terminating NUL.  A NUL
inside the list is read as the code reads any NUL: it ends the loop, it ends
a `%` directive with the return value -1, and behind a backslash it is
written and skipped like any other character.  A list `s ++ NUL :: t` thus
stands for the string `s` in a buffer that holds `t` behind the terminator. -/
def resuse_fprint (pagesize : Nat) (resp : resuse) :
    List Char → PtokStatics → Rendered
  | [], st => ⟨[], .returned 0, st⟩
  | c :: rest, st =>
    if c = NUL then ⟨[], .returned 0, st⟩
    else if c = '%' then
      match rest with
      | [] => ⟨['?'], .returned (-1), st⟩
      | d :: rest' =>
        if d = NUL then ⟨['?'], .returned (-1), st⟩
        else
          match percent_case pagesize resp st d with
          | none => ⟨[], .div_by_zero, st⟩
          | some (text, st') => (resuse_fprint pagesize resp rest' st').after text
    else if c = '\\' then
      match rest with
      | [] => ⟨['?', '\\', NUL], .past_terminator, st⟩
      | d :: rest' => (resuse_fprint pagesize resp rest' st).after (escape_case d)
    else (resuse_fprint pagesize resp rest st).after [c]

/-! ## Specification-level notions -/

/-- A timestamp as `gettimeofday` reports it: seconds since the Epoch that fit
a `time_t`, and a microsecond field in `[0, 1000000)`. -/
def timeval_ok (tv : timeval) : Prop :=
  0 ≤ tv.tv_sec ∧ tv.tv_sec ≤ 9223372036854775807 ∧ 0 ≤ tv.tv_usec ∧ tv.tv_usec < 1000000

/-- A timestamp expressed in microseconds. -/
def timeval_usec (tv : timeval) : Int := tv.tv_sec * 1000000 + tv.tv_usec

/-- The statics of `ptok` as a process can hold them for the page size
`pagesize`: still initial (`ps = 0`) or set by an earlier call. -/
def PtokStatics.ok (pagesize : Nat) (st : PtokStatics) : Prop :=
  st.ps = 0 ∨ st.ps = pagesize

instance (tv : timeval) : Decidable (timeval_ok tv) := by
  unfold timeval_ok; infer_instance

instance (pagesize : Nat) (st : PtokStatics) : Decidable (st.ok pagesize) := by
  unfold PtokStatics.ok; infer_instance

/-- The letters that `resuse_fprint` knows as directives after `%`. -/
def directive_letters : List Char :=
  ['D', 'E', 'F', 'I', 'K', 'M', 'O', 'P', 'R', 'S', 'U', 'W', 'X', 'Z',
   'c', 'e', 'k', 'p', 'r', 's', 't', 'w']

/-- A snapshot whose fields are all zero. -/
def resuse_zero : resuse :=
  ⟨⟨⟨0, 0⟩, ⟨0, 0⟩, 0, 0, 0, 0, 0, 0, 0, 0, 0, 0, 0, 0, 0, 0⟩, ⟨0, 0⟩, ⟨0, 0⟩,
    .RESUSE_SCOPE_PROC⟩

/-- The snapshot of the end-to-end example: user time 1 s + 230000 us, system
time 0 s + 40000 us, elapsed time 2 s + 500000 us, `maxrss` = 4096 pages; the
other fields are those of `resp`. -/
def example_snapshot (resp : resuse) : resuse :=
  { resp with
    ru := { resp.ru with ru_utime := ⟨1, 230000⟩, ru_stime := ⟨0, 40000⟩, ru_maxrss := 4096 },
    elapsed := ⟨2, 500000⟩ }

/-- The quotient `a / b` rounded to the nearest integer (halves upwards). -/
def round_nearest_div (a b : Nat) : Nat := (2 * a + b) / (2 * b)

/-- A number below 100 written with exactly two decimal digits. -/
def two_digits (n : Nat) : List Char := [Nat.digitChar (n / 10), Nat.digitChar (n % 10)]

/-- How the left-to-right reading of a format string ends: with every `%` and
backslash sequence complete, with a `%` that has no character after it, or
with a backslash that has no character after it. -/
inductive ScanEnd where
  | complete
  | open_percent
  | open_backslash
deriving DecidableEq, Repr

/-- The end of the left-to-right reading of a format string without NUL: a `%`
or a backslash takes the next character with it, any other character stands
alone. -/
def scan_end : List Char → ScanEnd
  | [] => .complete
  | [c] => if c = '%' then .open_percent else if c = '\\' then .open_backslash else .complete
  | c :: d :: rest => if c = '%' ∨ c = '\\' then scan_end rest else scan_end (d :: rest)

/-- The C string that a buffer holds: the characters in front of its first NUL. -/
def c_string (buf : List Char) : List Char := buf.takeWhile (fun c => c ≠ NUL)

/-! ## Lemmas on the machine integers -/

theorem toLong_eq_self (x : Int) (h1 : -9223372036854775808 ≤ x)
    (h2 : x ≤ 9223372036854775807) : toLong x = x := by
  unfold toLong; omega

theorem toUL_natCast (n : Nat) (h : n ≤ ULONG_MAX) : toUL (n : Int) = n := by
  unfold ULONG_MAX at h; unfold toUL; omega

theorem toUL_toLong (x : Int) : toUL (toLong x) = toUL x := by
  unfold toUL toLong; omega

theorem toUL_le (x : Int) : toUL x ≤ ULONG_MAX := by
  unfold toUL ULONG_MAX; omega

theorem ptok_ps_eq (s : Nat) (st : PtokStatics) (hs : s ≤ ULONG_MAX)
    (hst : st.ok s) : ptok_ps s st = s := by
  unfold ptok_ps
  rcases hst with h | h
  · rw [if_pos h, toUL_toLong, toUL_natCast s hs]
  · by_cases h0 : st.ps = 0
    · rw [if_pos h0, toUL_toLong, toUL_natCast s hs]
    · rw [if_neg h0, h]

/-- The value `ptok` returns, as a function of the page size and the page count. -/
theorem ptok_fst (s : Nat) (st : PtokStatics) (p : Nat) (hs : s ≤ ULONG_MAX)
    (hst : st.ok s) :
    (ptok s st p).1 =
      if p > LONG_MAX / s then (p / 1024) * s % 18446744073709551616
      else (p * s % 18446744073709551616) / 1024 := by
  unfold ptok
  simp only [ptok_ps_eq s st hs hst]
  split
  · simp only [toUL_toLong]
    unfold toUL; omega
  · simp only [toUL_toLong]
    unfold toUL; omega

/-- The statics `ptok` leaves are again admissible. -/
theorem ptok_snd_ok (s : Nat) (st : PtokStatics) (p : Nat) (hs : s ≤ ULONG_MAX)
    (hst : st.ok s) : (ptok s st p).2.ok s := by
  unfold ptok
  simp only [ptok_ps_eq s st hs hst]
  split <;> exact Or.inr rfl

/-! ## Elapsed time (`resuse_end`) -/

/-- C3: for start and end timestamps as `gettimeofday` reports them (seconds
since the Epoch within `time_t`, microseconds in `[0, 1000000)`) with the end
not before the start, the elapsed duration stored by `resuse_end` has
non-negative seconds, microseconds in `[0, 1000000)`, and amounts to exactly
`end - start` in microseconds. -/
theorem resuse_end_elapsed (resp : resuse) (now : timeval) (usage : rusage)
    (hs : timeval_ok resp.start) (he : timeval_ok now)
    (hle : timeval_usec resp.start ≤ timeval_usec now) :
    0 ≤ (resuse_end resp now usage).elapsed.tv_sec ∧
    0 ≤ (resuse_end resp now usage).elapsed.tv_usec ∧
    (resuse_end resp now usage).elapsed.tv_usec < 1000000 ∧
    (resuse_end resp now usage).elapsed.tv_sec * 1000000 +
        (resuse_end resp now usage).elapsed.tv_usec =
      timeval_usec now - timeval_usec resp.start := by
  obtain ⟨hs1, hs2, hs3, hs4⟩ := hs
  obtain ⟨he1, he2, he3, he4⟩ := he
  unfold timeval_usec at hle ⊢
  unfold resuse_end
  split
  · simp only
    unfold toLong
    omega
  · simp only
    unfold toLong
    omega

/-- Witness for C3: start at 100 s + 900000 us, end at 102 s + 100000 us;
the borrow branch yields 1 s + 200000 us. -/
theorem resuse_end_elapsed_witness :
    (resuse_end { resuse_zero with start := ⟨100, 900000⟩ } ⟨102, 100000⟩
        resuse_zero.ru).elapsed = ⟨1, 200000⟩ ∧
    (1 : Int) * 1000000 + 200000 =
      timeval_usec ⟨102, 100000⟩ - timeval_usec ⟨100, 900000⟩ := by
  have h := resuse_end_elapsed { resuse_zero with start := ⟨100, 900000⟩ } ⟨102, 100000⟩
    resuse_zero.ru (by decide) (by decide) (by decide)
  have e : (resuse_end { resuse_zero with start := ⟨100, 900000⟩ } ⟨102, 100000⟩
      resuse_zero.ru).elapsed = ⟨1, 200000⟩ := by decide
  rw [e] at h
  exact ⟨e, h.2.2.2⟩

/-! ## Pages to kilobytes (`ptok`) -/

theorem ptok_product_eq (s : Nat) (st : PtokStatics) (p : Nat) (hs : s ≤ ULONG_MAX)
    (hst : st.ok s) :
    ptok_product s st p = if p > LONG_MAX / s then (p / 1024) * s else p * s := by
  unfold ptok_product
  simp only [ptok_ps_eq s st hs hst]

theorem ptok_assigned_eq (s : Nat) (st : PtokStatics) (p : Nat) (hs : s ≤ ULONG_MAX)
    (hst : st.ok s) :
    ptok_assigned s st p =
      if p > LONG_MAX / s then (p / 1024) * s % 18446744073709551616
      else (p * s % 18446744073709551616) / 1024 := by
  unfold ptok_assigned
  simp only [ptok_ps_eq s st hs hst]

theorem div_first_le_exact (p s : Nat) : (p / 1024) * s ≤ p * s / 1024 := by
  rw [Nat.le_div_iff_mul_le (by norm_num)]
  calc p / 1024 * s * 1024 = (p / 1024 * 1024) * s := by ring
    _ ≤ p * s := Nat.mul_le_mul_right s (Nat.div_mul_le_self p 1024)

/-- C4 (counterexample): with 4096-byte pages and `2 ^ 62` pages the
divide-first product `(p / 1024) * s` is `2 ^ 64`, which exceeds the largest
`unsigned long`; the product wraps around and `ptok` returns 0. -/
theorem ptok_overflow_counterexample :
    (4611686018427387904 ≤ ULONG_MAX ∧ 1 ≤ 4096) ∧
    ¬ (ptok_product 4096 PtokStatics.init 4611686018427387904 ≤ ULONG_MAX) ∧
    (ptok 4096 PtokStatics.init 4611686018427387904).1 = 0 := by
  decide

/-- C4 (amended): for every page count `p` and page size `s ≥ 1`, `ptok` is
free of wrap-around (the product fits `unsigned long`, the value assigned to
the accumulator fits `long`) exactly when it takes the multiply-first branch
or the divide-first product `(p / 1024) * s` is at most `LONG_MAX`; this is
the case whenever the exact size `p * s / 1024` is at most `LONG_MAX`, and
then the returned value is the value assigned, unreduced. -/
theorem ptok_no_overflow_iff (s p : Nat) (st : PtokStatics) (hs1 : 1 ≤ s)
    (hs : s ≤ ULONG_MAX) (hst : st.ok s) :
    ((ptok_product s st p ≤ ULONG_MAX ∧ ptok_assigned s st p ≤ LONG_MAX) ↔
      (p ≤ LONG_MAX / s ∨ (p / 1024) * s ≤ LONG_MAX)) ∧
    (p * s / 1024 ≤ LONG_MAX →
      ptok_product s st p ≤ ULONG_MAX ∧ ptok_assigned s st p ≤ LONG_MAX ∧
      (ptok s st p).1 = (if p > LONG_MAX / s then (p / 1024) * s else p * s / 1024)) := by
  rw [ptok_product_eq s st p hs hst, ptok_assigned_eq s st p hs hst,
    ptok_fst s st p hs hst]
  have hmul : p ≤ LONG_MAX / s ↔ p * s ≤ LONG_MAX := Nat.le_div_iff_mul_le (by omega)
  have hdiv := div_first_le_exact p s
  generalize p * s = m at *
  generalize (p / 1024) * s = d at *
  generalize LONG_MAX / s = t at *
  unfold ULONG_MAX LONG_MAX at *
  constructor
  · constructor
    · intro h
      split at h <;> omega
    · intro h
      split <;> omega
  · intro h
    split <;> omega

/-- Witness for C4: 4096 pages of 4096 bytes are converted without wrap-around. -/
theorem ptok_no_overflow_iff_witness :
    ptok_product 4096 PtokStatics.init 4096 ≤ ULONG_MAX ∧
    ptok_assigned 4096 PtokStatics.init 4096 ≤ LONG_MAX ∧
    (ptok 4096 PtokStatics.init 4096).1 = 16384 :=
  (ptok_no_overflow_iff 4096 4096 PtokStatics.init (by decide) (by decide) (by decide)).2
    (by decide)

/-- C5 (counterexample): with 4096-byte pages, `2 ^ 62 - 1` pages convert to
`2 ^ 64 - 4096` KB but `2 ^ 62` pages convert to 0 KB (the divide-first
product wraps); and with a page size of 3 the conversion drops by one when
the page count crosses the threshold `LONG_MAX / 3`, without any wrap. -/
theorem ptok_monotone_counterexample :
    ((1 ≤ 4096 ∧ 4611686018427387903 ≤ 4611686018427387904 ∧
        4611686018427387904 ≤ ULONG_MAX) ∧
      ¬ ((ptok 4096 PtokStatics.init 4611686018427387903).1 ≤
          (ptok 4096 PtokStatics.init 4611686018427387904).1)) ∧
    ((1 ≤ 3 ∧ 3074457345618258602 ≤ 3074457345618258603 ∧
        3074457345618258603 ≤ ULONG_MAX) ∧
      ptok_product 3 PtokStatics.init 3074457345618258603 ≤ ULONG_MAX ∧
      ¬ ((ptok 3 PtokStatics.init 3074457345618258602).1 ≤
          (ptok 3 PtokStatics.init 3074457345618258603).1)) := by
  decide

theorem long_max_div_two_pow (k : Nat) (hk : k ≤ 53) :
    LONG_MAX / 2 ^ k = 2 ^ (63 - k) - 1 := by
  unfold LONG_MAX
  interval_cases k <;> norm_num

/-- C5 (amended): for a page size that is a power of two, `s = 2 ^ k` with
`k ≤ 53`, and page counts `p ≤ q` such that the divide-first product
`(q / 1024) * s` does not wrap, `ptok p ≤ ptok q`, also when `p` is converted
multiply-first and `q` divide-first. -/
theorem ptok_monotone_pow_two (k p q : Nat) (st st' : PtokStatics) (hk : k ≤ 53)
    (hst : st.ok (2 ^ k)) (hst' : st'.ok (2 ^ k)) (hpq : p ≤ q)
    (hq : (q / 1024) * 2 ^ k ≤ ULONG_MAX) :
    (ptok (2 ^ k) st p).1 ≤ (ptok (2 ^ k) st' q).1 := by
  have hs : 2 ^ k ≤ ULONG_MAX := by
    unfold ULONG_MAX
    calc 2 ^ k ≤ 2 ^ 53 := Nat.pow_le_pow_right (by norm_num) hk
      _ ≤ 18446744073709551615 := by norm_num
  have hpos : 0 < 2 ^ k := Nat.pow_pos (by norm_num)
  rw [ptok_fst _ st p hs hst, ptok_fst _ st' q hs hst']
  have hp : (p / 1024) * 2 ^ k ≤ (q / 1024) * 2 ^ k :=
    Nat.mul_le_mul_right _ (Nat.div_le_div_right hpq)
  have hmul : p * 2 ^ k ≤ q * 2 ^ k := Nat.mul_le_mul_right _ hpq
  have hpt : p ≤ LONG_MAX / 2 ^ k ↔ p * 2 ^ k ≤ LONG_MAX := Nat.le_div_iff_mul_le hpos
  have hqt : q ≤ LONG_MAX / 2 ^ k ↔ q * 2 ^ k ≤ LONG_MAX := Nat.le_div_iff_mul_le hpos
  by_cases hq1 : q > LONG_MAX / 2 ^ k
  · by_cases hp1 : p > LONG_MAX / 2 ^ k
    · rw [if_pos hq1, if_pos hp1]
      unfold ULONG_MAX at hq
      omega
    · rw [if_pos hq1, if_neg hp1]
      have hp2 : p * 2 ^ k ≤ LONG_MAX := hpt.mp (by omega)
      have hq2 : 2 ^ (63 - k) ≤ q := by
        rw [long_max_div_two_pow k hk] at hq1
        omega
      have hq3 : 2 ^ (53 - k) ≤ q / 1024 := by
        rw [Nat.le_div_iff_mul_le (by norm_num)]
        calc 2 ^ (53 - k) * 1024 = 2 ^ (53 - k + 10) := by rw [pow_add]; norm_num
          _ = 2 ^ (63 - k) := by congr 1; omega
          _ ≤ q := hq2
      have hq4 : 2 ^ 53 ≤ (q / 1024) * 2 ^ k := by
        calc 2 ^ 53 = 2 ^ (53 - k) * 2 ^ k := by rw [← pow_add]; congr 1; omega
          _ ≤ (q / 1024) * 2 ^ k := Nat.mul_le_mul_right _ hq3
      unfold ULONG_MAX at hq
      unfold LONG_MAX at hp2
      norm_num at hq4
      omega
  · have hq2 : q * 2 ^ k ≤ LONG_MAX := hqt.mp (by omega)
    have hp1 : ¬ p > LONG_MAX / 2 ^ k := by omega
    rw [if_neg hq1, if_neg hp1]
    unfold LONG_MAX at hq2
    omega

/-- Witness for C5: with 4096-byte pages, the last page count converted
multiply-first and the first one converted divide-first. -/
theorem ptok_monotone_pow_two_witness :
    (ptok (2 ^ 12) PtokStatics.init 2251799813685247).1 ≤
      (ptok (2 ^ 12) PtokStatics.init 2251799813685248).1 ∧
    (2251799813685247 ≤ LONG_MAX / 2 ^ 12 ∧ 2251799813685248 > LONG_MAX / 2 ^ 12) :=
  ⟨ptok_monotone_pow_two 12 2251799813685247 2251799813685248 PtokStatics.init
      PtokStatics.init (by decide) (by decide) (by decide) (by decide) (by decide),
    by decide⟩

/-! ## The scan of `resuse_fprint` -/

theorem resuse_fprint_nil (ps : Nat) (resp : resuse) (st : PtokStatics) :
    resuse_fprint ps resp [] st = ⟨[], .returned 0, st⟩ := by
  simp [resuse_fprint]

theorem percent_ne_NUL : ('%' : Char) ≠ NUL := by decide

/-- A directive whose `switch` case completes writes its text and the scan
goes on behind the directive letter. -/
theorem resuse_fprint_percent (ps : Nat) (resp : resuse) (st st' : PtokStatics)
    (d : Char) (rest text : List Char) (hd : d ≠ NUL)
    (h : percent_case ps resp st d = some (text, st')) :
    resuse_fprint ps resp ('%' :: d :: rest) st =
      (resuse_fprint ps resp rest st').after text := by
  rw [resuse_fprint]
  simp only [percent_ne_NUL, if_false, if_true, hd, h]

/-- A directive whose `switch` case divides by zero ends the call. -/
theorem resuse_fprint_percent_none (ps : Nat) (resp : resuse) (st : PtokStatics)
    (d : Char) (rest : List Char) (hd : d ≠ NUL)
    (h : percent_case ps resp st d = none) :
    resuse_fprint ps resp ('%' :: d :: rest) st = ⟨[], .div_by_zero, st⟩ := by
  rw [resuse_fprint]
  simp only [percent_ne_NUL, if_false, if_true, hd, h]

/-- A character other than `%`, backslash and NUL is copied and the scan goes
on behind it. -/
theorem resuse_fprint_ordinary (ps : Nat) (resp : resuse) (st : PtokStatics)
    (c : Char) (rest : List Char) (h1 : c ≠ '%') (h2 : c ≠ '\\') (h3 : c ≠ NUL) :
    resuse_fprint ps resp (c :: rest) st =
      (resuse_fprint ps resp rest st).after [c] := by
  cases rest with
  | nil => simp only [resuse_fprint, h1, h2, h3, if_false]
  | cons d rest' => simp only [resuse_fprint, h1, h2, h3, if_false]

/-- Text without `%`, backslash and NUL is copied and the call succeeds. -/
theorem resuse_fprint_literal (ps : Nat) (resp : resuse) (st : PtokStatics)
    (L : List Char) (hL : ∀ x ∈ L, x ≠ '%' ∧ x ≠ '\\' ∧ x ≠ NUL) :
    resuse_fprint ps resp L st = ⟨L, .returned 0, st⟩ := by
  induction L with
  | nil => exact resuse_fprint_nil ps resp st
  | cons c rest ih =>
    obtain ⟨h1, h2, h3⟩ := hL c (List.mem_cons_self c rest)
    rw [resuse_fprint_ordinary ps resp st c rest h1 h2 h3,
      ih (fun x hx => hL x (List.mem_cons_of_mem c hx))]
    rfl

/-! ## Directives -/

theorem fmt_lu_zero : fmt_lu 0 = ['0'] := rfl

/-- Literal text in front of a format is copied and the scan goes on behind it. -/
theorem resuse_fprint_literal_append (ps : Nat) (resp : resuse) (st : PtokStatics)
    (L rest : List Char) (hL : ∀ x ∈ L, x ≠ '%' ∧ x ≠ '\\' ∧ x ≠ NUL) :
    resuse_fprint ps resp (L ++ rest) st = (resuse_fprint ps resp rest st).after L := by
  induction L with
  | nil => rfl
  | cons c tail ih =>
    obtain ⟨h1, h2, h3⟩ := hL c (List.mem_cons_self c tail)
    rw [List.cons_append, resuse_fprint_ordinary ps resp st c _ h1 h2 h3,
      ih (fun x hx => hL x (List.mem_cons_of_mem c hx))]
    rfl

/-- C1 (the code at the failing input): a format that ends in a lone backslash
(here after literal text `L`) makes `resuse_fprint` write `?`, backslash and
NUL and then move its cursor behind the terminator instead of returning 0,
whereas a lone `%` in the same place is answered with `?` as the last
character written and the return value -1. -/
theorem resuse_fprint_lone_backslash (ps : Nat) (resp : resuse) (st : PtokStatics)
    (L : List Char) (hL : ∀ x ∈ L, x ≠ '%' ∧ x ≠ '\\' ∧ x ≠ NUL) :
    resuse_fprint ps resp (L ++ ['\\']) st =
      ⟨L ++ ['?', '\\', NUL], .past_terminator, st⟩ ∧
    resuse_fprint ps resp (L ++ ['%']) st = ⟨L ++ ['?'], .returned (-1), st⟩ := by
  rw [resuse_fprint_literal_append ps resp st L _ hL,
    resuse_fprint_literal_append ps resp st L _ hL]
  constructor <;> rfl

/-- Witness for C1: the format that consists of one backslash, and the format
`abc` followed by a backslash. -/
theorem resuse_fprint_lone_backslash_witness :
    resuse_fprint 4096 resuse_zero ['\\'] PtokStatics.init =
      ⟨['?', '\\', NUL], .past_terminator, PtokStatics.init⟩ ∧
    resuse_fprint 4096 resuse_zero ['a', 'b', 'c', '\\'] PtokStatics.init =
      ⟨['a', 'b', 'c', '?', '\\', NUL], .past_terminator, PtokStatics.init⟩ :=
  ⟨(resuse_fprint_lone_backslash 4096 resuse_zero PtokStatics.init [] (by decide)).1,
   (resuse_fprint_lone_backslash 4096 resuse_zero PtokStatics.init ['a', 'b', 'c']
      (by decide)).1⟩

/-- C2 (the code at the failing input): on a snapshot whose CPU time `v` is 0
the directives `%D`, `%X`, `%p` and `%t` render `0` and return 0, but `%K`
has no guard and divides by `MSEC_TO_TICKS (v) = 0`. -/
theorem zero_cpu_time_directives (ps : Nat) (resp : resuse) (st : PtokStatics)
    (hv : resuse_v resp = 0) :
    (∀ c ∈ ['D', 'X', 'p', 't'],
      resuse_fprint ps resp ['%', c] st = ⟨['0'], .returned 0, st⟩) ∧
    resuse_fprint ps resp ['%', 'K'] st = ⟨[], .div_by_zero, st⟩ := by
  have ht : MSEC_TO_TICKS (resuse_v resp) = 0 := by rw [hv]; rfl
  constructor
  · intro c hc
    have hpc : percent_case ps resp st c = some (['0'], st) := by
      simp only [List.mem_cons, List.mem_singleton, List.not_mem_nil, or_false] at hc
      rcases hc with h | h | h | h <;> subst h <;>
        simp [percent_case, ht, fmt_lu_zero]
    have hc0 : c ≠ NUL := by
      simp only [List.mem_cons, List.mem_singleton, List.not_mem_nil, or_false] at hc
      rcases hc with h | h | h | h <;> subst h <;> decide
    rw [resuse_fprint_percent ps resp st st c [] ['0'] hc0 hpc, resuse_fprint_nil]
    rfl
  · have hpc : percent_case ps resp st 'K' = none := by
      simp [percent_case, ht]
    exact resuse_fprint_percent_none ps resp st 'K' [] (by decide) hpc

/-- Witness for C2: the all-zero snapshot has `v = 0`. -/
theorem zero_cpu_time_directives_witness :
    resuse_v resuse_zero = 0 ∧
    resuse_fprint 4096 resuse_zero ['%', 'K'] PtokStatics.init =
      ⟨[], .div_by_zero, PtokStatics.init⟩ :=
  ⟨by decide, (zero_cpu_time_directives 4096 resuse_zero PtokStatics.init (by decide)).2⟩

/-- A backslash escape writes its text and the scan goes on behind the
escaped character. -/
theorem resuse_fprint_escape (ps : Nat) (resp : resuse) (st : PtokStatics)
    (d : Char) (rest : List Char) :
    resuse_fprint ps resp ('\\' :: d :: rest) st =
      (resuse_fprint ps resp rest st).after (escape_case d) := by
  rw [resuse_fprint]
  simp only [show ('\\' : Char) ≠ NUL by decide, show ('\\' : Char) ≠ '%' by decide,
    if_false, if_true]

theorem example_percent_U (resp : resuse) (st : PtokStatics) :
    percent_case 4096 (example_snapshot resp) st 'U' = some (['1', '.', '2', '3'], st) := by
  simp [percent_case, example_snapshot]
  rfl

theorem example_percent_S (resp : resuse) (st : PtokStatics) :
    percent_case 4096 (example_snapshot resp) st 'S' = some (['0', '.', '0', '4'], st) := by
  simp [percent_case, example_snapshot]
  rfl

theorem example_percent_P (resp : resuse) (st : PtokStatics) :
    percent_case 4096 (example_snapshot resp) st 'P' = some (['5', '0', '%'], st) := by
  simp [percent_case, example_snapshot, resuse_r, resuse_v]
  rfl

theorem example_percent_M (resp : resuse) (st : PtokStatics) (hst : st.ok 4096) :
    percent_case 4096 (example_snapshot resp) st 'M' =
      some (['1', '6', '3', '8', '4'], (ptok 4096 st 4096).2) := by
  have h := ptok_fst 4096 st 4096 (by decide) hst
  simp [percent_case, example_snapshot]
  refine ⟨?_, rfl⟩
  rw [show toUL 4096 = 4096 from rfl, h]
  rfl

/-- The directives of the end-to-end example, followed by any further text. -/
theorem example_directives (resp : resuse) (st : PtokStatics) (hst : st.ok 4096)
    (rest : List Char) :
    resuse_fprint 4096 (example_snapshot resp)
        ('%' :: 'U' :: ' ' :: '%' :: 'S' :: ' ' :: '%' :: 'P' :: ' ' :: '%' :: 'M' :: rest) st =
      (resuse_fprint 4096 (example_snapshot resp) rest (ptok 4096 st 4096).2).after
        "1.23 0.04 50% 16384".toList := by
  rw [resuse_fprint_percent _ _ st st 'U' _ _ (by decide) (example_percent_U resp st),
    resuse_fprint_ordinary _ _ _ ' ' _ (by decide) (by decide) (by decide),
    resuse_fprint_percent _ _ st st 'S' _ _ (by decide) (example_percent_S resp st),
    resuse_fprint_ordinary _ _ _ ' ' _ (by decide) (by decide) (by decide),
    resuse_fprint_percent _ _ st st 'P' _ _ (by decide) (example_percent_P resp st),
    resuse_fprint_ordinary _ _ _ ' ' _ (by decide) (by decide) (by decide),
    resuse_fprint_percent _ _ st _ 'M' _ _ (by decide) (example_percent_M resp st hst)]
  rfl

/-- C6: with 4096-byte pages, the format `%U %S %P %M` followed by a newline
(given as the newline character or as the escape backslash-n) renders on the
example snapshot as `1.23 0.04 50% 16384` followed by one newline, and the
call returns 0. -/
theorem resuse_fprint_example (resp : resuse) (st : PtokStatics) (hst : st.ok 4096) :
    (resuse_fprint 4096 (example_snapshot resp) "%U %S %P %M\n".toList st).out =
      "1.23 0.04 50% 16384\n".toList ∧
    (resuse_fprint 4096 (example_snapshot resp) "%U %S %P %M\n".toList st).status =
      .returned 0 ∧
    (resuse_fprint 4096 (example_snapshot resp) "%U %S %P %M\\n".toList st).out =
      "1.23 0.04 50% 16384\n".toList ∧
    (resuse_fprint 4096 (example_snapshot resp) "%U %S %P %M\\n".toList st).status =
      .returned 0 := by
  have h1 := example_directives resp st hst ['\n']
  have h2 := example_directives resp st hst ['\\', 'n']
  rw [resuse_fprint_ordinary _ _ _ '\n' _ (by decide) (by decide) (by decide),
    resuse_fprint_nil] at h1
  rw [resuse_fprint_escape, resuse_fprint_nil] at h2
  refine ⟨?_, ?_, ?_, ?_⟩
  · exact (congrArg Rendered.out h1).trans rfl
  · exact (congrArg Rendered.status h1).trans rfl
  · exact (congrArg Rendered.out h2).trans rfl
  · exact (congrArg Rendered.status h2).trans rfl

/-- Witness for C6: the example rendered with the initial statics of `ptok`. -/
theorem resuse_fprint_example_witness :
    (resuse_fprint 4096 (example_snapshot resuse_zero) "%U %S %P %M\n".toList
        PtokStatics.init).out = "1.23 0.04 50% 16384\n".toList :=
  (resuse_fprint_example resuse_zero PtokStatics.init (by decide)).1

/-- C7 (counterexample): on the example snapshot `v = 1270` and `r = 2500`, so
`v * 100 / r = 50.8`, whose nearest integer is 51; `%P` renders `50%`. -/
theorem percent_cpu_rounding_counterexample :
    0 < resuse_r (example_snapshot resuse_zero) ∧
    round_nearest_div (resuse_v (example_snapshot resuse_zero) * 100)
      (resuse_r (example_snapshot resuse_zero)) = 51 ∧
    (resuse_fprint 4096 (example_snapshot resuse_zero) ['%', 'P'] PtokStatics.init).out =
      ['5', '0', '%'] ∧
    (resuse_fprint 4096 (example_snapshot resuse_zero) ['%', 'P'] PtokStatics.init).out ≠
      fmt_lu (round_nearest_div (resuse_v (example_snapshot resuse_zero) * 100)
        (resuse_r (example_snapshot resuse_zero))) ++ ['%'] := by
  decide

/-- C7 (amended): when the elapsed time `r` in milliseconds is greater than 0,
`%P` renders the decimal value of the unsigned quotient `v * 100 / r`
(the product reduced modulo `2 ^ 64`) followed by `%`, and returns 0; when
`v * 100` fits an `unsigned long` that quotient is `v * 100 / r` rounded
down: `n * r ≤ v * 100 < (n + 1) * r`. -/
theorem percent_cpu_truncates (ps : Nat) (resp : resuse) (st : PtokStatics)
    (hr : 0 < resuse_r resp) :
    resuse_fprint ps resp ['%', 'P'] st =
      ⟨fmt_lu (resuse_v resp * 100 % 18446744073709551616 / resuse_r resp) ++ ['%'],
        .returned 0, st⟩ ∧
    (resuse_v resp * 100 ≤ ULONG_MAX →
      (resuse_v resp * 100 % 18446744073709551616 / resuse_r resp) * resuse_r resp
          ≤ resuse_v resp * 100 ∧
      resuse_v resp * 100 <
        (resuse_v resp * 100 % 18446744073709551616 / resuse_r resp + 1) * resuse_r resp) := by
  constructor
  · have hpc : percent_case ps resp st 'P' =
        some (fmt_lu (resuse_v resp * 100 % 18446744073709551616 / resuse_r resp) ++ ['%'],
          st) := by
      simp [percent_case, hr]
    rw [resuse_fprint_percent ps resp st st 'P' [] _ (by decide) hpc, resuse_fprint_nil]
    simp [Rendered.after]
  · intro hfit
    have hmod : resuse_v resp * 100 % 18446744073709551616 = resuse_v resp * 100 :=
      Nat.mod_eq_of_lt (by unfold ULONG_MAX at hfit; omega)
    rw [hmod]
    refine ⟨Nat.div_mul_le_self _ _, ?_⟩
    rw [Nat.mul_comm _ (resuse_r resp)]
    exact Nat.lt_mul_div_succ _ hr

/-- Witness for C7: on the example snapshot (`v = 1270`, `r = 2500`) `%P`
renders `50%`. -/
theorem percent_cpu_truncates_witness :
    0 < resuse_r (example_snapshot resuse_zero) ∧
    resuse_fprint 4096 (example_snapshot resuse_zero) ['%', 'P'] PtokStatics.init =
      ⟨['5', '0', '%'], .returned 0, PtokStatics.init⟩ :=
  ⟨by decide,
    (percent_cpu_truncates 4096 (example_snapshot resuse_zero) PtokStatics.init
      (by decide)).1⟩

/-- C8: when the elapsed time `r` in milliseconds is 0, `%P` renders exactly
`?%`, whatever the CPU time, and the call returns 0. -/
theorem percent_cpu_zero_elapsed (ps : Nat) (resp : resuse) (st : PtokStatics)
    (hr : resuse_r resp = 0) :
    resuse_fprint ps resp ['%', 'P'] st = ⟨['?', '%'], .returned 0, st⟩ := by
  have hpc : percent_case ps resp st 'P' = some (['?', '%'], st) := by
    simp [percent_case, hr]
  rw [resuse_fprint_percent ps resp st st 'P' [] _ (by decide) hpc, resuse_fprint_nil]
  rfl

/-- Witness for C8: an elapsed time of 0 s + 999 us with 5 s of user time. -/
theorem percent_cpu_zero_elapsed_witness :
    resuse_r { resuse_zero with
        ru := { resuse_zero.ru with ru_utime := ⟨5, 0⟩ }, elapsed := ⟨0, 999⟩ } = 0 ∧
    resuse_fprint 4096 { resuse_zero with
        ru := { resuse_zero.ru with ru_utime := ⟨5, 0⟩ }, elapsed := ⟨0, 999⟩ }
      ['%', 'P'] PtokStatics.init = ⟨['?', '%'], .returned 0, PtokStatics.init⟩ :=
  ⟨by decide, percent_cpu_zero_elapsed 4096 _ PtokStatics.init (by decide)⟩

theorem fmt_ld_natCast (n : Nat) : fmt_ld (n : Int) = Nat.toDigits 10 n := by
  simp [fmt_ld]

theorem fmt_02ld_natCast (n : Nat) (h : n < 100) : fmt_02ld (n : Int) = two_digits n := by
  have hn : ¬ ((n : Int) < 0) := by omega
  simp only [fmt_02ld, hn, if_false, Int.toNat_ofNat]
  interval_cases n <;> rfl

theorem tdiv_natCast (a b : Nat) : (a : Int).tdiv (b : Int) = ((a / b : Nat) : Int) :=
  (Int.ofNat_tdiv a b).symm

theorem tmod_natCast (a b : Nat) : (a : Int).tmod (b : Int) = ((a % b : Nat) : Int) :=
  (Int.ofNat_tmod a b).symm

/-- C9: for an elapsed time of `sec` seconds and `usec < 1000000` microseconds,
`%E` renders `h:mm:ss` (hours unpadded, minutes and seconds with two digits)
exactly when `sec ≥ 3600`, and otherwise `m:ss.cc` (minutes unpadded, seconds
and hundredths `usec / 10000` with two digits); the call returns 0. -/
theorem elapsed_directive_E (ps : Nat) (resp : resuse) (st : PtokStatics)
    (sec usec : Nat) (husec : usec < 1000000) :
    resuse_fprint ps { resp with elapsed := ⟨sec, usec⟩ } ['%', 'E'] st =
      ⟨if 3600 ≤ sec then
          Nat.toDigits 10 (sec / 3600) ++ [':'] ++ two_digits (sec % 3600 / 60) ++ [':'] ++
            two_digits (sec % 60)
        else
          Nat.toDigits 10 (sec / 60) ++ [':'] ++ two_digits (sec % 60) ++ ['.'] ++
            two_digits (usec / 10000),
        .returned 0, st⟩ := by
  have h1 : ((sec : Int) ≥ 3600) ↔ 3600 ≤ sec := by omega
  have e1 : (sec : Int).tdiv 3600 = ((sec / 3600 : Nat) : Int) := tdiv_natCast sec 3600
  have e2 : ((sec : Int).tmod 3600).tdiv 60 = ((sec % 3600 / 60 : Nat) : Int) := by
    rw [show (3600 : Int) = ((3600 : Nat) : Int) from rfl, tmod_natCast]
    exact tdiv_natCast _ 60
  have e3 : (sec : Int).tmod 60 = ((sec % 60 : Nat) : Int) := tmod_natCast sec 60
  have e4 : (sec : Int).tdiv 60 = ((sec / 60 : Nat) : Int) := tdiv_natCast sec 60
  have e5 : (usec : Int).tdiv 10000 = ((usec / 10000 : Nat) : Int) := tdiv_natCast usec 10000
  have b1 : sec % 3600 / 60 < 100 := by omega
  have b2 : sec % 60 < 100 := by omega
  have b3 : usec / 10000 < 100 := by omega
  have hpc : percent_case ps { resp with elapsed := ⟨sec, usec⟩ } st 'E' =
      some (if 3600 ≤ sec then
          Nat.toDigits 10 (sec / 3600) ++ [':'] ++ two_digits (sec % 3600 / 60) ++ [':'] ++
            two_digits (sec % 60)
        else
          Nat.toDigits 10 (sec / 60) ++ [':'] ++ two_digits (sec % 60) ++ ['.'] ++
            two_digits (usec / 10000), st) := by
    simp only [percent_case, show ('E' : Char) ≠ '%' by decide, show ('E' : Char) ≠ 'D' by decide,
      if_false, if_true, h1, e1, e2, e3, e4, e5, fmt_ld_natCast,
      fmt_02ld_natCast _ b1, fmt_02ld_natCast _ b2, fmt_02ld_natCast _ b3]
    split <;> rfl
  rw [resuse_fprint_percent ps _ st st 'E' [] _ (by decide) hpc, resuse_fprint_nil]
  simp [Rendered.after]

/-- Witness for C9: 3599 s + 120000 us renders `59:59.12`, and 3600 s renders
`1:00:00`. -/
theorem elapsed_directive_E_witness :
    resuse_fprint 4096 { resuse_zero with elapsed := ⟨3599, 120000⟩ } ['%', 'E']
        PtokStatics.init = ⟨"59:59.12".toList, .returned 0, PtokStatics.init⟩ ∧
    resuse_fprint 4096 { resuse_zero with elapsed := ⟨3600, 0⟩ } ['%', 'E']
        PtokStatics.init = ⟨"1:00:00".toList, .returned 0, PtokStatics.init⟩ :=
  ⟨elapsed_directive_E 4096 resuse_zero PtokStatics.init 3599 120000 (by decide),
   elapsed_directive_E 4096 resuse_zero PtokStatics.init 3600 0 (by decide)⟩

/-- C10: for a character `c` that is neither NUL, `%` nor a directive letter,
and literal text `L` without `%` and backslash (and, as part of a C string,
without NUL), the format `%` `c` `L` renders as `?` `c` `L` and the call
returns 0, whatever the snapshot. -/
theorem unknown_directive (ps : Nat) (resp : resuse) (st : PtokStatics) (c : Char)
    (L : List Char) (h0 : c ≠ NUL) (hp : c ≠ '%') (hd : c ∉ directive_letters)
    (hL : ∀ x ∈ L, x ≠ '%' ∧ x ≠ '\\' ∧ x ≠ NUL) :
    resuse_fprint ps resp ('%' :: c :: L) st = ⟨'?' :: c :: L, .returned 0, st⟩ := by
  have hpc : percent_case ps resp st c = some (['?', c], st) := by
    simp only [directive_letters, List.mem_cons, List.mem_singleton, List.not_mem_nil,
      or_false, not_or] at hd
    obtain ⟨d1, d2, d3, d4, d5, d6, d7, d8, d9, d10, d11, d12, d13, d14, d15, d16, d17,
      d18, d19, d20, d21, d22⟩ := hd
    simp only [percent_case, hp, d1, d2, d3, d4, d5, d6, d7, d8, d9, d10, d11, d12, d13,
      d14, d15, d16, d17, d18, d19, d20, d21, d22, if_false]
  rw [resuse_fprint_percent ps resp st st c L _ h0 hpc, resuse_fprint_literal ps resp st L hL]
  rfl

/-- Witness for C10: `%Q` followed by the text ` done` renders as `?Q done`. -/
theorem unknown_directive_witness :
    resuse_fprint 4096 resuse_zero "%Q done".toList PtokStatics.init =
      ⟨"?Q done".toList, .returned 0, PtokStatics.init⟩ :=
  unknown_directive 4096 resuse_zero PtokStatics.init 'Q' " done".toList
    (by decide) (by decide) (by decide) (by decide)

/-! ## Escapes and literal text -/

/-- C11: for every format `f`, backslash-`t` in front of `f` writes a tab,
backslash-`n` a newline and backslash-backslash one backslash, and a backslash
followed by any other character `c` of the string writes `?`, backslash, `c`;
in each case the rendering of `f` follows and the call ends as the rendering of
`f` alone does. -/
theorem escape_sequences (ps : Nat) (resp : resuse) (st : PtokStatics) (f : List Char)
    (c : Char) (ht : c ≠ 't') (hn : c ≠ 'n') (hb : c ≠ '\\') :
    ((resuse_fprint ps resp ('\\' :: 't' :: f) st).out =
        '\t' :: (resuse_fprint ps resp f st).out ∧
      (resuse_fprint ps resp ('\\' :: 't' :: f) st).status =
        (resuse_fprint ps resp f st).status) ∧
    ((resuse_fprint ps resp ('\\' :: 'n' :: f) st).out =
        '\n' :: (resuse_fprint ps resp f st).out ∧
      (resuse_fprint ps resp ('\\' :: 'n' :: f) st).status =
        (resuse_fprint ps resp f st).status) ∧
    ((resuse_fprint ps resp ('\\' :: '\\' :: f) st).out =
        '\\' :: (resuse_fprint ps resp f st).out ∧
      (resuse_fprint ps resp ('\\' :: '\\' :: f) st).status =
        (resuse_fprint ps resp f st).status) ∧
    ((resuse_fprint ps resp ('\\' :: c :: f) st).out =
        '?' :: '\\' :: c :: (resuse_fprint ps resp f st).out ∧
      (resuse_fprint ps resp ('\\' :: c :: f) st).status =
        (resuse_fprint ps resp f st).status) := by
  have hc : escape_case c = ['?', '\\', c] := by
    simp only [escape_case, ht, hn, hb, if_false]
  rw [resuse_fprint_escape ps resp st 't', resuse_fprint_escape ps resp st 'n',
    resuse_fprint_escape ps resp st '\\', resuse_fprint_escape ps resp st c, hc]
  exact ⟨⟨rfl, rfl⟩, ⟨rfl, rfl⟩, ⟨rfl, rfl⟩, ⟨rfl, rfl⟩⟩

/-- Witness for C11: backslash-`q` in front of the format `%%`. -/
theorem escape_sequences_witness :
    (resuse_fprint 4096 resuse_zero ['\\', 'q', '%', '%'] PtokStatics.init).out =
      '?' :: '\\' :: 'q' :: (resuse_fprint 4096 resuse_zero ['%', '%'] PtokStatics.init).out ∧
    (resuse_fprint 4096 resuse_zero ['%', '%'] PtokStatics.init).out = ['%'] :=
  ⟨(escape_sequences 4096 resuse_zero PtokStatics.init ['%', '%'] 'q'
      (by decide) (by decide) (by decide)).2.2.2.1, by decide⟩

/-- C12: a format that contains neither `%` nor backslash (nor, being a C
string, NUL) is written out unchanged, and the call returns 0. -/
theorem literal_format_verbatim (ps : Nat) (resp : resuse) (st : PtokStatics)
    (fmt : List Char) (hp : '%' ∉ fmt) (hb : '\\' ∉ fmt) (h0 : NUL ∉ fmt) :
    (resuse_fprint ps resp fmt st).out = fmt ∧
    (resuse_fprint ps resp fmt st).status = .returned 0 := by
  have h : ∀ x ∈ fmt, x ≠ '%' ∧ x ≠ '\\' ∧ x ≠ NUL := fun x hx =>
    ⟨fun e => hp (e ▸ hx), fun e => hb (e ▸ hx), fun e => h0 (e ▸ hx)⟩
  rw [resuse_fprint_literal ps resp st fmt h]
  exact ⟨rfl, rfl⟩

/-- Witness for C12: the format `real time` is written out unchanged. -/
theorem literal_format_verbatim_witness :
    (resuse_fprint 4096 resuse_zero "real time".toList PtokStatics.init).out =
      "real time".toList ∧
    (resuse_fprint 4096 resuse_zero "real time".toList PtokStatics.init).status =
      .returned 0 :=
  literal_format_verbatim 4096 resuse_zero PtokStatics.init "real time".toList
    (by decide) (by decide) (by decide)

/-- C13: the format `%%` renders as the one character `%`, the format
backslash-backslash as one backslash; both calls return 0 and leave the
statics of `ptok` alone, whatever the snapshot. -/
theorem percent_and_backslash_roundtrip (ps : Nat) (resp : resuse) (st : PtokStatics) :
    resuse_fprint ps resp ['%', '%'] st = ⟨['%'], .returned 0, st⟩ ∧
    resuse_fprint ps resp ['\\', '\\'] st = ⟨['\\'], .returned 0, st⟩ := by
  constructor
  · rw [resuse_fprint_percent ps resp st st '%' [] ['%'] (by decide) rfl, resuse_fprint_nil]
    rfl
  · rw [resuse_fprint_escape, resuse_fprint_nil]
    rfl

/-! ## More on `ptok` -/

theorem ptok_fst_value (s : Nat) (st : PtokStatics) (p : Nat) (hs : s ≤ ULONG_MAX)
    (hst : st.ok s) : (ptok s st p).1 = ptok_value s p :=
  ptok_fst s st p hs hst

/-- C19: for a page size `s ≥ 1` and a page count `p ≤ LONG_MAX / s`, `ptok`
takes the multiply-first branch, the product `p * s` does not wrap, and the
result is `p * s / 1024` in unbounded arithmetic; for `p > LONG_MAX / s` it
takes the divide-first branch and returns `(p / 1024) * s` modulo `2 ^ 64`. -/
theorem ptok_branches (s p : Nat) (st : PtokStatics) (hs1 : 1 ≤ s) (hs : s ≤ ULONG_MAX)
    (hst : st.ok s) :
    (p ≤ LONG_MAX / s →
      ptok_branch s st p = .multiply_first ∧ ptok_product s st p = p * s ∧
      p * s ≤ ULONG_MAX ∧ (ptok s st p).1 = p * s / 1024) ∧
    (p > LONG_MAX / s →
      ptok_branch s st p = .divide_first ∧ ptok_product s st p = (p / 1024) * s ∧
      (ptok s st p).1 = (p / 1024) * s % 18446744073709551616) := by
  have hmul : p ≤ LONG_MAX / s ↔ p * s ≤ LONG_MAX := Nat.le_div_iff_mul_le (by omega)
  rw [ptok_product_eq s st p hs hst, ptok_fst s st p hs hst]
  unfold ptok_branch
  rw [ptok_ps_eq s st hs hst]
  constructor
  · intro h
    have h1 : ¬ p > LONG_MAX / s := by omega
    have h2 : p * s ≤ LONG_MAX := hmul.mp h
    rw [if_neg h1, if_neg h1, if_neg h1]
    unfold LONG_MAX at h2
    unfold ULONG_MAX
    refine ⟨rfl, rfl, by omega, ?_⟩
    rw [Nat.mod_eq_of_lt (by omega)]
  · intro h
    rw [if_pos h, if_pos h, if_pos h]
    exact ⟨rfl, rfl, rfl⟩

/-- Witness for C19: with 4096-byte pages, 4096 pages are converted
multiply-first to 16384 KB, and `2 ^ 62` pages divide-first to `2 ^ 64 mod
2 ^ 64 = 0` KB. -/
theorem ptok_branches_witness :
    (ptok_branch 4096 PtokStatics.init 4096 = .multiply_first ∧
      (ptok 4096 PtokStatics.init 4096).1 = 16384) ∧
    (ptok_branch 4096 PtokStatics.init 4611686018427387904 = .divide_first ∧
      (ptok 4096 PtokStatics.init 4611686018427387904).1 = 0) :=
  ⟨⟨((ptok_branches 4096 4096 PtokStatics.init (by decide) (by decide) (by decide)).1
        (by decide)).1,
    ((ptok_branches 4096 4096 PtokStatics.init (by decide) (by decide) (by decide)).1
        (by decide)).2.2.2⟩,
   ⟨((ptok_branches 4096 4611686018427387904 PtokStatics.init (by decide) (by decide)
        (by decide)).2 (by decide)).1,
    ((ptok_branches 4096 4611686018427387904 PtokStatics.init (by decide) (by decide)
        (by decide)).2 (by decide)).2.2⟩⟩

/-! ## Averages, times and counters -/

/-- C14 (counterexample): with 4096-byte pages, 100 ms of CPU time (10 ticks)
and two pages each of `idrss` and `isrss` (8 KB each), adding first gives
`16 / 10 = 1`, whereas `%D` renders `8 / 10 + 8 / 10 = 0`. -/
theorem avg_unshared_data_counterexample :
    0 < MSEC_TO_TICKS (resuse_v { resuse_zero with
        ru := { resuse_zero.ru with ru_utime := ⟨0, 100000⟩, ru_idrss := 2, ru_isrss := 2 } }) ∧
    (resuse_fprint 4096 { resuse_zero with
        ru := { resuse_zero.ru with ru_utime := ⟨0, 100000⟩, ru_idrss := 2, ru_isrss := 2 } }
      ['%', 'D'] PtokStatics.init).out = ['0'] ∧
    fmt_lu (((ptok 4096 PtokStatics.init (toUL 2)).1 + (ptok 4096 PtokStatics.init (toUL 2)).1) /
      MSEC_TO_TICKS (resuse_v { resuse_zero with
        ru := { resuse_zero.ru with ru_utime := ⟨0, 100000⟩, ru_idrss := 2, ru_isrss := 2 } }))
      = ['1'] ∧
    (resuse_fprint 4096 { resuse_zero with
        ru := { resuse_zero.ru with ru_utime := ⟨0, 100000⟩, ru_idrss := 2, ru_isrss := 2 } }
      ['%', 'D'] PtokStatics.init).out ≠
    fmt_lu (((ptok 4096 PtokStatics.init (toUL 2)).1 + (ptok 4096 PtokStatics.init (toUL 2)).1) /
      MSEC_TO_TICKS (resuse_v { resuse_zero with
        ru := { resuse_zero.ru with ru_utime := ⟨0, 100000⟩, ru_idrss := 2, ru_isrss := 2 } })) := by
  decide

/-- C14 (amended): when `ticks (v) > 0`, `%D` renders the decimal value of
`convert (idrss) / ticks (v) + convert (isrss) / ticks (v)`: each converted
size is divided by the tick count on its own (integer division) and the two
quotients are added (modulo `2 ^ 64`); the call returns 0.  That sum is the
quotient of the added sizes or one less. -/
theorem avg_unshared_data_directive (ps : Nat) (resp : resuse) (st : PtokStatics)
    (hs : ps ≤ ULONG_MAX) (hst : st.ok ps) (ht : 0 < MSEC_TO_TICKS (resuse_v resp)) :
    (resuse_fprint ps resp ['%', 'D'] st).out =
        fmt_lu ((ptok_value ps (toUL resp.ru.ru_idrss) / MSEC_TO_TICKS (resuse_v resp) +
          ptok_value ps (toUL resp.ru.ru_isrss) / MSEC_TO_TICKS (resuse_v resp))
            % 18446744073709551616) ∧
    (resuse_fprint ps resp ['%', 'D'] st).status = .returned 0 ∧
    ptok_value ps (toUL resp.ru.ru_idrss) / MSEC_TO_TICKS (resuse_v resp) +
        ptok_value ps (toUL resp.ru.ru_isrss) / MSEC_TO_TICKS (resuse_v resp) ≤
      (ptok_value ps (toUL resp.ru.ru_idrss) + ptok_value ps (toUL resp.ru.ru_isrss)) /
        MSEC_TO_TICKS (resuse_v resp) ∧
    (ptok_value ps (toUL resp.ru.ru_idrss) + ptok_value ps (toUL resp.ru.ru_isrss)) /
        MSEC_TO_TICKS (resuse_v resp) ≤
      ptok_value ps (toUL resp.ru.ru_idrss) / MSEC_TO_TICKS (resuse_v resp) +
        ptok_value ps (toUL resp.ru.ru_isrss) / MSEC_TO_TICKS (resuse_v resp) + 1 := by
  have hne : MSEC_TO_TICKS (resuse_v resp) ≠ 0 := by omega
  have e1 := ptok_fst_value ps st (toUL resp.ru.ru_idrss) hs hst
  have e2 := ptok_fst_value ps (ptok ps st (toUL resp.ru.ru_idrss)).2 (toUL resp.ru.ru_isrss)
    hs (ptok_snd_ok ps st _ hs hst)
  have hpc : percent_case ps resp st 'D' =
      some (fmt_lu ((ptok_value ps (toUL resp.ru.ru_idrss) / MSEC_TO_TICKS (resuse_v resp) +
          ptok_value ps (toUL resp.ru.ru_isrss) / MSEC_TO_TICKS (resuse_v resp))
            % 18446744073709551616),
        (ptok ps (ptok ps st (toUL resp.ru.ru_idrss)).2 (toUL resp.ru.ru_isrss)).2) := by
    simp only [percent_case, show ('D' : Char) ≠ '%' by decide, if_false, if_true, hne, e1, e2]
  rw [resuse_fprint_percent ps resp st _ 'D' [] _ (by decide) hpc, resuse_fprint_nil]
  refine ⟨by simp [Rendered.after], rfl, ?_, ?_⟩
  · exact Nat.add_div_le_add_div _ _ _
  · generalize ptok_value ps (toUL resp.ru.ru_idrss) = a
    generalize ptok_value ps (toUL resp.ru.ru_isrss) = b
    generalize MSEC_TO_TICKS (resuse_v resp) = t at ht
    have ha := Nat.div_add_mod a t
    have hb := Nat.div_add_mod b t
    have ha' := Nat.mod_lt a ht
    have hb' := Nat.mod_lt b ht
    rw [Nat.div_le_iff_le_mul_add_pred ht]
    have : t * (a / t + b / t + 1) = t * (a / t) + t * (b / t) + t := by ring
    omega

/-- Witness for C14: the snapshot of the counterexample renders `0` for `%D`. -/
theorem avg_unshared_data_directive_witness :
    (resuse_fprint 4096 { resuse_zero with
        ru := { resuse_zero.ru with ru_utime := ⟨0, 100000⟩, ru_idrss := 2, ru_isrss := 2 } }
      ['%', 'D'] PtokStatics.init).status = .returned 0 :=
  (avg_unshared_data_directive 4096 { resuse_zero with
      ru := { resuse_zero.ru with ru_utime := ⟨0, 100000⟩, ru_idrss := 2, ru_isrss := 2 } }
    PtokStatics.init (by decide) (by decide) (by decide)).2.1

theorem toInt_natCast (n : Nat) (h : n < 100) : toInt (n : Int) = (n : Int) := by
  unfold toInt; omega

theorem fmt_ld_eq_repr (x : Int) : fmt_ld x = (Int.repr x).data := by
  cases x with
  | ofNat m =>
    have h : ¬ (Int.ofNat m < 0) := Int.not_lt.mpr (Int.ofNat_nonneg m)
    simp only [fmt_ld, h, if_false]
    rfl
  | negSucc m =>
    have h : Int.negSucc m < 0 := Int.negSucc_lt_zero m
    simp only [fmt_ld, h, if_true]
    rfl

theorem percent_case_S (ps : Nat) (resp : resuse) (st : PtokStatics) :
    percent_case ps resp st 'S' =
      some (fmt_ld resp.ru.ru_stime.tv_sec ++ ['.'] ++
        fmt_02d ((TV_MSEC resp.ru.ru_stime).tdiv 10), st) := by
  simp [percent_case]

theorem percent_case_U (ps : Nat) (resp : resuse) (st : PtokStatics) :
    percent_case ps resp st 'U' =
      some (fmt_ld resp.ru.ru_utime.tv_sec ++ ['.'] ++
        fmt_02ld ((TV_MSEC resp.ru.ru_utime).tdiv 10), st) := by
  simp [percent_case]

theorem percent_case_e (ps : Nat) (resp : resuse) (st : PtokStatics) :
    percent_case ps resp st 'e' =
      some (fmt_ld resp.elapsed.tv_sec ++ ['.'] ++
        fmt_02ld (resp.elapsed.tv_usec.tdiv 10000), st) := by
  simp [percent_case]

/-- C15: for time values of `sec` seconds and `usec < 1000000` microseconds,
`%S` (system time), `%U` (user time) and `%e` (elapsed time) render the
decimal seconds, a `.` and exactly the two decimal digits of `usec / 10000`;
each call returns 0. -/
theorem seconds_directives (ps : Nat) (resp : resuse) (st : PtokStatics)
    (ssec susec usec_ uusec esec eusec : Nat)
    (hs : susec < 1000000) (hu : uusec < 1000000) (he : eusec < 1000000) :
    resuse_fprint ps { resp with
        ru := { resp.ru with ru_utime := ⟨usec_, uusec⟩, ru_stime := ⟨ssec, susec⟩ },
        elapsed := ⟨esec, eusec⟩ } ['%', 'S'] st =
      ⟨Nat.toDigits 10 ssec ++ ['.'] ++ two_digits (susec / 10000), .returned 0, st⟩ ∧
    resuse_fprint ps { resp with
        ru := { resp.ru with ru_utime := ⟨usec_, uusec⟩, ru_stime := ⟨ssec, susec⟩ },
        elapsed := ⟨esec, eusec⟩ } ['%', 'U'] st =
      ⟨Nat.toDigits 10 usec_ ++ ['.'] ++ two_digits (uusec / 10000), .returned 0, st⟩ ∧
    resuse_fprint ps { resp with
        ru := { resp.ru with ru_utime := ⟨usec_, uusec⟩, ru_stime := ⟨ssec, susec⟩ },
        elapsed := ⟨esec, eusec⟩ } ['%', 'e'] st =
      ⟨Nat.toDigits 10 esec ++ ['.'] ++ two_digits (eusec / 10000), .returned 0, st⟩ := by
  have cs : ((susec : Int).tdiv 1000).tdiv 10 = ((susec / 10000 : Nat) : Int) := by
    rw [show (1000 : Int) = ((1000 : Nat) : Int) from rfl, tdiv_natCast,
      show (10 : Int) = ((10 : Nat) : Int) from rfl, tdiv_natCast, Nat.div_div_eq_div_mul]
  have cu : ((uusec : Int).tdiv 1000).tdiv 10 = ((uusec / 10000 : Nat) : Int) := by
    rw [show (1000 : Int) = ((1000 : Nat) : Int) from rfl, tdiv_natCast,
      show (10 : Int) = ((10 : Nat) : Int) from rfl, tdiv_natCast, Nat.div_div_eq_div_mul]
  have ce : (eusec : Int).tdiv 10000 = ((eusec / 10000 : Nat) : Int) := tdiv_natCast eusec 10000
  have bs : susec / 10000 < 100 := by omega
  have bu : uusec / 10000 < 100 := by omega
  have be : eusec / 10000 < 100 := by omega
  refine ⟨?_, ?_, ?_⟩
  · have hpc : percent_case ps { resp with
          ru := { resp.ru with ru_utime := ⟨usec_, uusec⟩, ru_stime := ⟨ssec, susec⟩ },
          elapsed := ⟨esec, eusec⟩ } st 'S' =
        some (Nat.toDigits 10 ssec ++ ['.'] ++ two_digits (susec / 10000), st) := by
      rw [percent_case_S]
      simp only [TV_MSEC, fmt_02d, cs, toInt_natCast _ bs, fmt_ld_natCast,
        fmt_02ld_natCast _ bs]
    rw [resuse_fprint_percent ps _ st st 'S' [] _ (by decide) hpc, resuse_fprint_nil]
    simp [Rendered.after]
  · have hpc : percent_case ps { resp with
          ru := { resp.ru with ru_utime := ⟨usec_, uusec⟩, ru_stime := ⟨ssec, susec⟩ },
          elapsed := ⟨esec, eusec⟩ } st 'U' =
        some (Nat.toDigits 10 usec_ ++ ['.'] ++ two_digits (uusec / 10000), st) := by
      rw [percent_case_U]
      simp only [TV_MSEC, cu, fmt_ld_natCast, fmt_02ld_natCast _ bu]
    rw [resuse_fprint_percent ps _ st st 'U' [] _ (by decide) hpc, resuse_fprint_nil]
    simp [Rendered.after]
  · have hpc : percent_case ps { resp with
          ru := { resp.ru with ru_utime := ⟨usec_, uusec⟩, ru_stime := ⟨ssec, susec⟩ },
          elapsed := ⟨esec, eusec⟩ } st 'e' =
        some (Nat.toDigits 10 esec ++ ['.'] ++ two_digits (eusec / 10000), st) := by
      rw [percent_case_e]
      simp only [ce, fmt_ld_natCast, fmt_02ld_natCast _ be]
    rw [resuse_fprint_percent ps _ st st 'e' [] _ (by decide) hpc, resuse_fprint_nil]
    simp [Rendered.after]

/-- Witness for C15: 0 s + 49999 us of system time renders `0.04`, 12 s +
999999 us of user time `12.99`, 2 s + 500000 us of elapsed time `2.50`. -/
theorem seconds_directives_witness :
    resuse_fprint 4096 { resuse_zero with
        ru := { resuse_zero.ru with ru_utime := ⟨12, 999999⟩, ru_stime := ⟨0, 49999⟩ },
        elapsed := ⟨2, 500000⟩ } ['%', 'S'] PtokStatics.init =
      ⟨"0.04".toList, .returned 0, PtokStatics.init⟩ ∧
    resuse_fprint 4096 { resuse_zero with
        ru := { resuse_zero.ru with ru_utime := ⟨12, 999999⟩, ru_stime := ⟨0, 49999⟩ },
        elapsed := ⟨2, 500000⟩ } ['%', 'U'] PtokStatics.init =
      ⟨"12.99".toList, .returned 0, PtokStatics.init⟩ ∧
    resuse_fprint 4096 { resuse_zero with
        ru := { resuse_zero.ru with ru_utime := ⟨12, 999999⟩, ru_stime := ⟨0, 49999⟩ },
        elapsed := ⟨2, 500000⟩ } ['%', 'e'] PtokStatics.init =
      ⟨"2.50".toList, .returned 0, PtokStatics.init⟩ :=
  seconds_directives 4096 resuse_zero PtokStatics.init 0 49999 12 999999 2 500000
    (by decide) (by decide) (by decide)

/-- A directive that only formats a field of the snapshot: the text is
written and the call returns 0. -/
theorem resuse_fprint_single (ps : Nat) (resp : resuse) (st : PtokStatics) (d : Char)
    (text : List Char) (hd : d ≠ NUL) (h : percent_case ps resp st d = some (text, st)) :
    resuse_fprint ps resp ['%', d] st = ⟨text, .returned 0, st⟩ := by
  rw [resuse_fprint_percent ps resp st st d [] text hd h, resuse_fprint_nil]
  simp [Rendered.after]

/-- C16: each raw-counter directive renders the signed decimal value of its
own counter and nothing else, and returns 0: `%F` major page faults, `%R`
minor page faults, `%I` block input operations, `%O` block output
operations, `%W` swaps, `%c` involuntary context switches, `%w` voluntary
context switches, `%k` signals, `%r` socket messages received, `%s` socket
messages sent. -/
theorem raw_counter_directives (ps : Nat) (resp : resuse) (st : PtokStatics) :
    resuse_fprint ps resp ['%', 'F'] st =
      ⟨(Int.repr resp.ru.ru_majflt).data, .returned 0, st⟩ ∧
    resuse_fprint ps resp ['%', 'R'] st =
      ⟨(Int.repr resp.ru.ru_minflt).data, .returned 0, st⟩ ∧
    resuse_fprint ps resp ['%', 'I'] st =
      ⟨(Int.repr resp.ru.ru_inblock).data, .returned 0, st⟩ ∧
    resuse_fprint ps resp ['%', 'O'] st =
      ⟨(Int.repr resp.ru.ru_oublock).data, .returned 0, st⟩ ∧
    resuse_fprint ps resp ['%', 'W'] st =
      ⟨(Int.repr resp.ru.ru_nswap).data, .returned 0, st⟩ ∧
    resuse_fprint ps resp ['%', 'c'] st =
      ⟨(Int.repr resp.ru.ru_nivcsw).data, .returned 0, st⟩ ∧
    resuse_fprint ps resp ['%', 'w'] st =
      ⟨(Int.repr resp.ru.ru_nvcsw).data, .returned 0, st⟩ ∧
    resuse_fprint ps resp ['%', 'k'] st =
      ⟨(Int.repr resp.ru.ru_nsignals).data, .returned 0, st⟩ ∧
    resuse_fprint ps resp ['%', 'r'] st =
      ⟨(Int.repr resp.ru.ru_msgrcv).data, .returned 0, st⟩ ∧
    resuse_fprint ps resp ['%', 's'] st =
      ⟨(Int.repr resp.ru.ru_msgsnd).data, .returned 0, st⟩ := by
  refine ⟨?_, ?_, ?_, ?_, ?_, ?_, ?_, ?_, ?_, ?_⟩ <;>
    exact resuse_fprint_single ps resp st _ _ (by decide)
      (by simp [percent_case, fmt_ld_eq_repr])

/-! ## Independence of the statics of `ptok` -/

/-- Induction over a list in steps of one or two elements, as the scan of
`resuse_fprint` proceeds. -/
theorem list_two_step {α : Type} {P : List α → Prop} (h0 : P [])
    (h1 : ∀ c, P [c])
    (h2 : ∀ c d rest, P rest → P (d :: rest) → P (c :: d :: rest)) :
    ∀ l, P l := by
  have key : ∀ l, P l ∧ ∀ c, P (c :: l) := by
    intro l
    induction l with
    | nil => exact ⟨h0, h1⟩
    | cons d rest ih => exact ⟨ih.2 d, fun c => h2 c d rest ih.1 (ih.2 d)⟩
  exact fun l => (key l).1

theorem resuse_fprint_NUL (ps : Nat) (resp : resuse) (st : PtokStatics) (rest : List Char) :
    resuse_fprint ps resp (NUL :: rest) st = ⟨[], .returned 0, st⟩ := by
  cases rest <;> simp [resuse_fprint]

theorem resuse_fprint_percent_end (ps : Nat) (resp : resuse) (st : PtokStatics) :
    resuse_fprint ps resp ['%'] st = ⟨['?'], .returned (-1), st⟩ := rfl

theorem resuse_fprint_percent_NUL (ps : Nat) (resp : resuse) (st : PtokStatics)
    (rest : List Char) :
    resuse_fprint ps resp ('%' :: NUL :: rest) st = ⟨['?'], .returned (-1), st⟩ := by
  rw [resuse_fprint]
  simp only [percent_ne_NUL, if_false, if_true]

theorem resuse_fprint_backslash_end (ps : Nat) (resp : resuse) (st : PtokStatics) :
    resuse_fprint ps resp ['\\'] st = ⟨['?', '\\', NUL], .past_terminator, st⟩ := rfl

/-- A character that is no directive letter is answered with `?` and itself. -/
theorem percent_case_unknown (ps : Nat) (resp : resuse) (st : PtokStatics) (c : Char)
    (hc : c ∉ '%' :: directive_letters) : percent_case ps resp st c = some (['?', c], st) := by
  simp only [directive_letters, List.mem_cons, List.mem_singleton, List.not_mem_nil,
    or_false, not_or] at hc
  obtain ⟨hp, d1, d2, d3, d4, d5, d6, d7, d8, d9, d10, d11, d12, d13, d14, d15, d16, d17,
    d18, d19, d20, d21, d22⟩ := hc
  simp only [percent_case, hp, d1, d2, d3, d4, d5, d6, d7, d8, d9, d10, d11, d12, d13,
    d14, d15, d16, d17, d18, d19, d20, d21, d22, if_false]

/-- Every directive leaves admissible statics. -/
theorem percent_case_ok (ps : Nat) (resp : resuse) (st st1 : PtokStatics) (c : Char)
    (text : List Char) (hs : ps ≤ ULONG_MAX) (hst : st.ok ps)
    (h : percent_case ps resp st c = some (text, st1)) : st1.ok ps := by
  have k1 := fun p => ptok_snd_ok ps st p hs hst
  have k2 := fun p q => ptok_snd_ok ps (ptok ps st p).2 q hs (k1 p)
  have k3 := fun p q r => ptok_snd_ok ps (ptok ps (ptok ps st p).2 q).2 r hs (k2 p q)
  by_cases hm : c ∈ '%' :: directive_letters
  · simp only [directive_letters, List.mem_cons, List.mem_singleton, List.not_mem_nil,
      or_false] at hm
    rcases hm with rfl | rfl | rfl | rfl | rfl | rfl | rfl | rfl | rfl | rfl | rfl | rfl | rfl | rfl | rfl | rfl | rfl | rfl | rfl | rfl | rfl | rfl | rfl
    all_goals
      simp only [percent_case, Char.reduceEq, if_false, if_true] at h
      try split_ifs at h
      all_goals
        first
        | simp only [reduceCtorEq] at h
        | (simp only [Option.some.injEq, Prod.mk.injEq] at h
           rw [← h.2]
           first
           | exact hst
           | simp only [k1, k2, k3])
  · rw [percent_case_unknown ps resp st c hm] at h
    simp only [Option.some.injEq, Prod.mk.injEq] at h
    obtain ⟨-, rfl⟩ := h
    exact hst

/-- The text of a directive does not depend on the statics. -/
theorem percent_case_indep (ps : Nat) (resp : resuse) (st st' : PtokStatics) (c : Char)
    (hs : ps ≤ ULONG_MAX) (hst : st.ok ps) (hst' : st'.ok ps) :
    (percent_case ps resp st c).map Prod.fst = (percent_case ps resp st' c).map Prod.fst := by
  have k1 := fun p => ptok_snd_ok ps st p hs hst
  have k2 := fun p q => ptok_snd_ok ps (ptok ps st p).2 q hs (k1 p)
  have k1' := fun p => ptok_snd_ok ps st' p hs hst'
  have k2' := fun p q => ptok_snd_ok ps (ptok ps st' p).2 q hs (k1' p)
  have e1 := fun p => ptok_fst_value ps st p hs hst
  have e2 := fun p q => ptok_fst_value ps (ptok ps st p).2 q hs (k1 p)
  have e3 := fun p q r => ptok_fst_value ps (ptok ps (ptok ps st p).2 q).2 r hs (k2 p q)
  have e1' := fun p => ptok_fst_value ps st' p hs hst'
  have e2' := fun p q => ptok_fst_value ps (ptok ps st' p).2 q hs (k1' p)
  have e3' := fun p q r => ptok_fst_value ps (ptok ps (ptok ps st' p).2 q).2 r hs (k2' p q)
  by_cases hm : c ∈ '%' :: directive_letters
  · simp only [directive_letters, List.mem_cons, List.mem_singleton, List.not_mem_nil,
      or_false] at hm
    rcases hm with rfl | rfl | rfl | rfl | rfl | rfl | rfl | rfl | rfl | rfl | rfl | rfl | rfl | rfl | rfl | rfl | rfl | rfl | rfl | rfl | rfl | rfl | rfl
    all_goals
      simp only [percent_case, Char.reduceEq, if_false, if_true, e1, e2, e3, e1', e2', e3']
      first
      | (split_ifs <;> simp only [Option.map_some', Option.map_none'])
      | simp only [Option.map_some', Option.map_none']
  · rw [percent_case_unknown ps resp st c hm, percent_case_unknown ps resp st' c hm]
    rfl

/-- The output and the way the call ends do not depend on the statics of
`ptok` the call starts with, and the statics it leaves are admissible. -/
theorem resuse_fprint_indep (ps : Nat) (resp : resuse) (hs : ps ≤ ULONG_MAX)
    (fmt : List Char) :
    ∀ st st' : PtokStatics, st.ok ps → st'.ok ps →
      (resuse_fprint ps resp fmt st).out = (resuse_fprint ps resp fmt st').out ∧
      (resuse_fprint ps resp fmt st).status = (resuse_fprint ps resp fmt st').status ∧
      (resuse_fprint ps resp fmt st).statics.ok ps := by
  induction fmt using list_two_step with
  | h0 =>
    intro st st' hst _
    rw [resuse_fprint_nil, resuse_fprint_nil]
    exact ⟨rfl, rfl, hst⟩
  | h1 c =>
    intro st st' hst _
    simp only [resuse_fprint, Rendered.after]
    split_ifs <;> exact ⟨rfl, rfl, hst⟩
  | h2 c d rest ih1 ih2 =>
    intro st st' hst hst'
    by_cases hc0 : c = NUL
    · subst hc0
      rw [resuse_fprint_NUL, resuse_fprint_NUL]
      exact ⟨rfl, rfl, hst⟩
    by_cases hcp : c = '%'
    · subst hcp
      by_cases hd0 : d = NUL
      · subst hd0
        rw [resuse_fprint_percent_NUL, resuse_fprint_percent_NUL]
        exact ⟨rfl, rfl, hst⟩
      have hi := percent_case_indep ps resp st st' d hs hst hst'
      cases h : percent_case ps resp st d with
      | none =>
        cases h' : percent_case ps resp st' d with
        | none =>
          rw [resuse_fprint_percent_none ps resp st d rest hd0 h,
            resuse_fprint_percent_none ps resp st' d rest hd0 h']
          exact ⟨rfl, rfl, hst⟩
        | some x => rw [h, h'] at hi; simp at hi
      | some x =>
        cases h' : percent_case ps resp st' d with
        | none => rw [h, h'] at hi; simp at hi
        | some x' =>
          obtain ⟨text, st1⟩ := x
          obtain ⟨text', st1'⟩ := x'
          rw [h, h'] at hi
          simp only [Option.map_some', Option.some.injEq] at hi
          subst hi
          have k := ih1 st1 st1' (percent_case_ok ps resp st st1 d text hs hst h)
            (percent_case_ok ps resp st' st1' d text hs hst' h')
          rw [resuse_fprint_percent ps resp st st1 d rest text hd0 h,
            resuse_fprint_percent ps resp st' st1' d rest text hd0 h']
          simp only [Rendered.after]
          exact ⟨by rw [k.1], k.2.1, k.2.2⟩
    by_cases hcb : c = '\\'
    · subst hcb
      have k := ih1 st st' hst hst'
      rw [resuse_fprint_escape, resuse_fprint_escape]
      simp only [Rendered.after]
      exact ⟨by rw [k.1], k.2.1, k.2.2⟩
    · have k := ih2 st st' hst hst'
      rw [resuse_fprint_ordinary ps resp st c _ hcp hcb hc0,
        resuse_fprint_ordinary ps resp st' c _ hcp hcb hc0]
      simp only [Rendered.after]
      exact ⟨by rw [k.1], k.2.1, k.2.2⟩

/-- C17 (the code at the failing input, and where the claim holds): two
buffers that hold the same format string, one backslash, but differ in the
character behind the terminator are rendered differently, `?`, backslash,
NUL, `a` with return value 0 against `?`, backslash, NUL, `?` with return
value -1, so the output is not a function of the format string, the snapshot
and the page size.  For every format whose rendering returns a code, a second
rendering, started with the statics of `ptok` that the first one leaves or
with any other admissible statics, writes the same characters and returns
the same code. -/
theorem render_twice_defect (ps : Nat) (resp : resuse) (st : PtokStatics) :
    (c_string ['\\', NUL, 'a'] = ['\\'] ∧ c_string ['\\', NUL, '%'] = ['\\'] ∧
      resuse_fprint ps resp ['\\', NUL, 'a'] st =
        ⟨['?', '\\', NUL, 'a'], .returned 0, st⟩ ∧
      resuse_fprint ps resp ['\\', NUL, '%'] st =
        ⟨['?', '\\', NUL, '?'], .returned (-1), st⟩) ∧
    (∀ (fmt : List Char) (code : Int), ps ≤ ULONG_MAX → st.ok ps →
      (resuse_fprint ps resp fmt st).status = .returned code →
      ((resuse_fprint ps resp fmt (resuse_fprint ps resp fmt st).statics).out =
          (resuse_fprint ps resp fmt st).out ∧
        (resuse_fprint ps resp fmt (resuse_fprint ps resp fmt st).statics).status =
          .returned code) ∧
      (∀ st' : PtokStatics, st'.ok ps →
        (resuse_fprint ps resp fmt st').out = (resuse_fprint ps resp fmt st).out ∧
        (resuse_fprint ps resp fmt st').status = .returned code)) := by
  refine ⟨⟨by decide, by decide, ?_, ?_⟩, ?_⟩
  · rw [resuse_fprint_escape,
      resuse_fprint_ordinary ps resp st 'a' [] (by decide) (by decide) (by decide),
      resuse_fprint_nil]
    rfl
  · rw [resuse_fprint_escape, resuse_fprint_percent_end]
    rfl
  · intro fmt code hs hst hret
    have key : ∀ st' : PtokStatics, st'.ok ps →
        (resuse_fprint ps resp fmt st').out = (resuse_fprint ps resp fmt st).out ∧
        (resuse_fprint ps resp fmt st').status = .returned code :=
      fun st' hst' =>
        ⟨(resuse_fprint_indep ps resp hs fmt st' st hst' hst).1,
          (resuse_fprint_indep ps resp hs fmt st' st hst' hst).2.1.trans hret⟩
    exact ⟨key _ (resuse_fprint_indep ps resp hs fmt st st hst hst).2.2, key⟩

/-- Witness for C17: the example format returns 0 and leaves the statics
`ps = 4096`, `size = 16384`; rendered again with them it writes the same
characters and returns 0. -/
theorem render_twice_defect_witness :
    (resuse_fprint 4096 (example_snapshot resuse_zero) "%U %S %P %M\n".toList
        PtokStatics.init).statics = ⟨4096, 16384⟩ ∧
    (resuse_fprint 4096 (example_snapshot resuse_zero) "%U %S %P %M\n".toList
        (resuse_fprint 4096 (example_snapshot resuse_zero) "%U %S %P %M\n".toList
          PtokStatics.init).statics).out =
      (resuse_fprint 4096 (example_snapshot resuse_zero) "%U %S %P %M\n".toList
        PtokStatics.init).out ∧
    (resuse_fprint 4096 (example_snapshot resuse_zero) "%U %S %P %M\n".toList
        (resuse_fprint 4096 (example_snapshot resuse_zero) "%U %S %P %M\n".toList
          PtokStatics.init).statics).status = .returned 0 :=
  ⟨by decide,
    ((render_twice_defect 4096 (example_snapshot resuse_zero) PtokStatics.init).2
      "%U %S %P %M\n".toList 0 (by decide) (by decide) (by decide)).1.1,
    ((render_twice_defect 4096 (example_snapshot resuse_zero) PtokStatics.init).2
      "%U %S %P %M\n".toList 0 (by decide) (by decide) (by decide)).1.2⟩

/-! ## The end of the scan -/

/-- A directive divides by zero only when the CPU time amounts to no tick. -/
theorem percent_case_none (ps : Nat) (resp : resuse) (st : PtokStatics) (c : Char)
    (h : percent_case ps resp st c = none) : MSEC_TO_TICKS (resuse_v resp) = 0 := by
  by_cases hm : c ∈ '%' :: directive_letters
  · simp only [directive_letters, List.mem_cons, List.mem_singleton, List.not_mem_nil,
      or_false] at hm
    rcases hm with rfl | rfl | rfl | rfl | rfl | rfl | rfl | rfl | rfl | rfl | rfl | rfl | rfl | rfl | rfl | rfl | rfl | rfl | rfl | rfl | rfl | rfl | rfl
    all_goals
      simp only [percent_case, Char.reduceEq, if_false, if_true] at h
      try split_ifs at h
      all_goals
        first
        | assumption
        | simp only [reduceCtorEq] at h
  · rw [percent_case_unknown ps resp st c hm] at h
    simp only [reduceCtorEq] at h

/-- How a call on a format string without NUL ends: with a division by zero
(only when the CPU time amounts to no tick), or as the end of the reading of
the format tells. -/
theorem resuse_fprint_status (ps : Nat) (resp : resuse) (fmt : List Char) :
    ∀ st : PtokStatics, NUL ∉ fmt →
      ((resuse_fprint ps resp fmt st).status = .div_by_zero ∧
          MSEC_TO_TICKS (resuse_v resp) = 0) ∨
      (scan_end fmt = .complete ∧ (resuse_fprint ps resp fmt st).status = .returned 0) ∨
      (scan_end fmt = .open_percent ∧
          (resuse_fprint ps resp fmt st).status = .returned (-1)) ∨
      (scan_end fmt = .open_backslash ∧
          (resuse_fprint ps resp fmt st).status = .past_terminator) := by
  induction fmt using list_two_step with
  | h0 =>
    intro st _
    exact Or.inr (Or.inl ⟨rfl, rfl⟩)
  | h1 c =>
    intro st h0
    by_cases hcp : c = '%'
    · subst hcp
      exact Or.inr (Or.inr (Or.inl ⟨rfl, rfl⟩))
    by_cases hcb : c = '\\'
    · subst hcb
      exact Or.inr (Or.inr (Or.inr ⟨rfl, rfl⟩))
    · have hc0 : c ≠ NUL := fun e => h0 (e ▸ List.mem_cons_self c [])
      refine Or.inr (Or.inl ⟨?_, ?_⟩)
      · simp only [scan_end, hcp, hcb, if_false]
      · rw [resuse_fprint_ordinary ps resp st c [] hcp hcb hc0, resuse_fprint_nil]
        rfl
  | h2 c d rest ih1 ih2 =>
    intro st h0
    have hc0 : c ≠ NUL := fun e => h0 (e ▸ List.mem_cons_self c _)
    have hd0 : d ≠ NUL := fun e =>
      h0 (e ▸ List.mem_cons_of_mem c (List.mem_cons_self d rest))
    have hrest : NUL ∉ rest := fun hm =>
      h0 (List.mem_cons_of_mem c (List.mem_cons_of_mem d hm))
    have hdrest : NUL ∉ d :: rest := fun hm => h0 (List.mem_cons_of_mem c hm)
    by_cases hcp : c = '%'
    · subst hcp
      have hse : scan_end ('%' :: d :: rest) = scan_end rest := by
        simp only [scan_end, true_or, if_true]
      cases h : percent_case ps resp st d with
      | none =>
        rw [resuse_fprint_percent_none ps resp st d rest hd0 h]
        exact Or.inl ⟨rfl, percent_case_none ps resp st d h⟩
      | some x =>
        obtain ⟨text, st1⟩ := x
        rw [resuse_fprint_percent ps resp st st1 d rest text hd0 h, hse]
        exact ih1 st1 hrest
    by_cases hcb : c = '\\'
    · subst hcb
      have hse : scan_end ('\\' :: d :: rest) = scan_end rest := by
        simp only [scan_end, or_true, if_true]
      rw [resuse_fprint_escape, hse]
      exact ih1 st hrest
    · have hse : scan_end (c :: d :: rest) = scan_end (d :: rest) := by
        simp only [scan_end, hcp, hcb, or_self, if_false]
      rw [resuse_fprint_ordinary ps resp st c _ hcp hcb hc0, hse]
      exact ih2 st hdrest

/-- C18 (the code at the failing inputs): on a format string without NUL the
cursor of `resuse_fprint` moves behind the terminator only if the reading of
the format ends with a backslash that has no character after it, and, unless
a division by zero ends the call before, it does so for every such format. -/
theorem scan_overrun_iff (ps : Nat) (resp : resuse) (st : PtokStatics) (fmt : List Char)
    (h0 : NUL ∉ fmt) :
    ((resuse_fprint ps resp fmt st).status = .past_terminator →
      scan_end fmt = .open_backslash) ∧
    (MSEC_TO_TICKS (resuse_v resp) ≠ 0 → scan_end fmt = .open_backslash →
      (resuse_fprint ps resp fmt st).status = .past_terminator) := by
  have k := resuse_fprint_status ps resp fmt st h0
  constructor
  · intro h
    rcases k with ⟨k1, _⟩ | ⟨_, k2⟩ | ⟨_, k2⟩ | ⟨k1, _⟩
    · rw [h] at k1; exact absurd k1 (by decide)
    · rw [h] at k2; exact absurd k2 (by decide)
    · rw [h] at k2; exact absurd k2 (by decide)
    · exact k1
  · intro ht h
    rcases k with ⟨_, k2⟩ | ⟨k1, _⟩ | ⟨k1, _⟩ | ⟨_, k2⟩
    · exact absurd k2 ht
    · rw [h] at k1; exact absurd k1 (by decide)
    · rw [h] at k1; exact absurd k1 (by decide)
    · exact k2

/-- Witness for C18: the format `%e` followed by a lone backslash, on the
example snapshot, sends the cursor behind the terminator. -/
theorem scan_overrun_iff_witness :
    scan_end ['%', 'e', '\\'] = .open_backslash ∧
    (resuse_fprint 4096 (example_snapshot resuse_zero) ['%', 'e', '\\']
      PtokStatics.init).status = .past_terminator :=
  ⟨by decide,
    (scan_overrun_iff 4096 (example_snapshot resuse_zero) PtokStatics.init ['%', 'e', '\\']
      (by decide)).2 (by decide) (by decide)⟩

/-! ## Concatenation of formats -/

theorem Rendered.after_nil (k : Rendered) : Rendered.after [] k = k := rfl

theorem Rendered.after_after (s t : List Char) (k : Rendered) :
    Rendered.after s (Rendered.after t k) = Rendered.after (s ++ t) k := by
  simp [Rendered.after]

/-- A format `a` without NUL whose rendering returns 0 is worked off
completely in front of any format `b`: the rendering of `b` follows, started
with the statics that `a` leaves. -/
theorem resuse_fprint_append (ps : Nat) (resp : resuse) (b : List Char) (a : List Char) :
    ∀ st : PtokStatics, NUL ∉ a → (resuse_fprint ps resp a st).status = .returned 0 →
      resuse_fprint ps resp (a ++ b) st =
        (resuse_fprint ps resp b (resuse_fprint ps resp a st).statics).after
          (resuse_fprint ps resp a st).out := by
  induction a using list_two_step with
  | h0 =>
    intro st _ _
    rw [List.nil_append, resuse_fprint_nil]
    rfl
  | h1 c =>
    intro st h0 hst
    have hc0 : c ≠ NUL := fun e => h0 (e ▸ List.mem_cons_self c [])
    by_cases hcp : c = '%'
    · subst hcp
      rw [resuse_fprint_percent_end] at hst
      exact absurd hst (by simp)
    by_cases hcb : c = '\\'
    · subst hcb
      rw [resuse_fprint_backslash_end] at hst
      exact absurd hst (by simp)
    · rw [List.singleton_append, resuse_fprint_ordinary ps resp st c b hcp hcb hc0,
        resuse_fprint_ordinary ps resp st c [] hcp hcb hc0, resuse_fprint_nil]
      rfl
  | h2 c d rest ih1 ih2 =>
    intro st h0 hst
    have hc0 : c ≠ NUL := fun e => h0 (e ▸ List.mem_cons_self c _)
    have hd0 : d ≠ NUL := fun e =>
      h0 (e ▸ List.mem_cons_of_mem c (List.mem_cons_self d rest))
    have hrest : NUL ∉ rest := fun hm =>
      h0 (List.mem_cons_of_mem c (List.mem_cons_of_mem d hm))
    have hdrest : NUL ∉ d :: rest := fun hm => h0 (List.mem_cons_of_mem c hm)
    by_cases hcp : c = '%'
    · subst hcp
      cases h : percent_case ps resp st d with
      | none =>
        rw [resuse_fprint_percent_none ps resp st d rest hd0 h] at hst
        exact absurd hst (by simp)
      | some x =>
        obtain ⟨text, st1⟩ := x
        rw [resuse_fprint_percent ps resp st st1 d rest text hd0 h] at hst ⊢
        rw [List.cons_append, List.cons_append,
          resuse_fprint_percent ps resp st st1 d (rest ++ b) text hd0 h,
          ih1 st1 hrest hst, Rendered.after_after]
        rfl
    by_cases hcb : c = '\\'
    · subst hcb
      rw [resuse_fprint_escape] at hst ⊢
      rw [List.cons_append, List.cons_append, resuse_fprint_escape, ih1 st hrest hst,
        Rendered.after_after]
      rfl
    · rw [resuse_fprint_ordinary ps resp st c _ hcp hcb hc0] at hst ⊢
      rw [List.cons_append, resuse_fprint_ordinary ps resp st c _ hcp hcb hc0,
        ih2 st hdrest hst, Rendered.after_after]
      rfl

/-- C20: when the rendering of a format `a` (without NUL) alone returns 0, the
rendering of `a ++ b` writes what `a` alone writes followed by what `b` alone
writes, and ends as the rendering of `b` alone ends. -/
theorem render_concat (ps : Nat) (resp : resuse) (st : PtokStatics) (a b : List Char)
    (hs : ps ≤ ULONG_MAX) (hst : st.ok ps) (h0 : NUL ∉ a)
    (ha : (resuse_fprint ps resp a st).status = .returned 0) :
    (resuse_fprint ps resp (a ++ b) st).out =
      (resuse_fprint ps resp a st).out ++ (resuse_fprint ps resp b st).out ∧
    (resuse_fprint ps resp (a ++ b) st).status = (resuse_fprint ps resp b st).status := by
  have hok := (resuse_fprint_indep ps resp hs a st st hst hst).2.2
  have hb := resuse_fprint_indep ps resp hs b (resuse_fprint ps resp a st).statics st hok hst
  rw [resuse_fprint_append ps resp b a st h0 ha]
  simp only [Rendered.after]
  exact ⟨by rw [hb.1], hb.2.1⟩

/-- Witness for C20: the format `%U %S ` in front of `%P %M` followed by a
lone `%`, on the example snapshot. -/
theorem render_concat_witness :
    (resuse_fprint 4096 (example_snapshot resuse_zero) ("%U %S ".toList ++ "%P %M%".toList)
        PtokStatics.init).out = "1.23 0.04 ".toList ++ "50% 16384?".toList ∧
    (resuse_fprint 4096 (example_snapshot resuse_zero) ("%U %S ".toList ++ "%P %M%".toList)
        PtokStatics.init).status = .returned (-1) :=
  render_concat 4096 (example_snapshot resuse_zero) PtokStatics.init "%U %S ".toList
    "%P %M%".toList (by decide) (by decide) (by decide) (by decide)

end Resuse
